import Mathlib

/-!
Verification development for the multi-agent competitor-research service.

The Python source (backend/manager.py, backend/schemas.py,
backend/tools/alpha_vantage.py, backend/news_researcher.py) is shallowly
embedded below: pure functions become Lean functions on `List Char` /
`String`, the LLM text provider, the JSON decoder of the standard library
and the specialist crew executions become explicit oracle inputs, and
Python exceptions become `Except` values.  Machine floats of the financial
summarizer are modelled as exact rationals (no claim depends on rounding).
-/

set_option autoImplicit false

namespace MAS

/-! ## Python string primitives

The service lowercases, strips and searches ASCII command text; we model
Python `str` as `List Char` (`Str`) and implement the primitive string
operations the embedded functions use.  `str.lower` is modelled on the
ASCII range (all inputs the service compares against are ASCII literals).
-/

abbrev Str := List Char

instance {ε α : Type} [DecidableEq ε] [DecidableEq α] : DecidableEq (Except ε α) := fun x y =>
  match x, y with
  | .ok a, .ok b =>
      if h : a = b then isTrue (by rw [h])
      else isFalse (by intro hc; cases hc; exact h rfl)
  | .ok _, .error _ => isFalse (by intro hc; cases hc)
  | .error _, .ok _ => isFalse (by intro hc; cases hc)
  | .error e, .error f =>
      if h : e = f then isTrue (by rw [h])
      else isFalse (by intro hc; cases hc; exact h rfl)

/-- Python `\s` / `str.strip` whitespace (ASCII range). -/
def isPyWs (c : Char) : Bool :=
  c == ' ' || c == '\t' || c == '\n' || c == '\r' || c == '\x0b' || c == '\x0c'

/-- Leading-whitespace removal (Python `lstrip`). -/
def dropWhileWs (l : Str) : Str := l.dropWhile isPyWs

/-- Trailing-whitespace removal (Python `rstrip`). -/
def rdropWhileWs (l : Str) : Str := (l.reverse.dropWhile isPyWs).reverse

/-- Python `str.strip()`. -/
def pyStrip (l : Str) : Str := dropWhileWs (rdropWhileWs l)

/-- Does `s` start with `pat`?  (helper for substring search). -/
def listStartsWith : Str → Str → Bool
  | [], _ => true
  | _ :: _, [] => false
  | p :: ps, c :: cs => p == c && listStartsWith ps cs

/-- Python `pat in s` substring test. -/
def listContains (pat : Str) : Str → Bool
  | [] => pat.isEmpty
  | c :: cs => listStartsWith pat (c :: cs) || listContains pat cs

/-- Python `str.lower()` (ASCII). -/
def pyLower (l : Str) : Str := l.map Char.toLower

/-- `message.strip().lower()` as performed by `detect_intent`. -/
def normalizeMsg (s : String) : Str := pyLower (pyStrip s.toList)

/-! ## A small regular-expression engine

`detect_intent` matches the user message against eleven anchored regular
expressions.  We embed them via a standard Brzozowski-derivative matcher:
`RE.matchList r s` decides whether `s` is in the language of `r`.  Since
each source pattern is of the form `^ ... \s*$` and is run with
`re.match`, a source pattern matches the message iff the corresponding
full-match regex (with the trailing `\s*$` rendered as `ws*`, which is
equivalent because `\n` is itself whitespace) accepts the whole string.
-/

inductive RE where
  | eps
  | cls (p : Char → Bool)
  | seq (a b : RE)
  | alt (a b : RE)
  | star (a : RE)

def RE.nullable : RE → Bool
  | .eps => true
  | .cls _ => false
  | .seq a b => a.nullable && b.nullable
  | .alt a b => a.nullable || b.nullable
  | .star _ => true

def RE.deriv : RE → Char → RE
  | .eps, _ => .cls fun _ => false
  | .cls p, c => if p c then .eps else .cls fun _ => false
  | .seq a b, c =>
      if a.nullable then .alt (.seq (a.deriv c) b) (b.deriv c)
      else .seq (a.deriv c) b
  | .alt a b, c => .alt (a.deriv c) (b.deriv c)
  | .star a, c => .seq (a.deriv c) (.star a)

def RE.matchList (r : RE) (s : Str) : Bool := (s.foldl RE.deriv r).nullable

/-- One literal pattern character under `re.IGNORECASE`. -/
def RE.lit (c : Char) : RE := .cls fun x => x == c || x == c.toUpper

/-- A literal word of the pattern. -/
def RE.word (s : String) : RE := s.toList.foldr (fun c r => RE.seq (RE.lit c) r) RE.eps

/-- Pattern `\s*`. -/
def RE.wsStar : RE := .star (.cls isPyWs)

/-- Pattern `\s+`. -/
def RE.wsPlus : RE := .seq (.cls isPyWs) RE.wsStar

/-- Pattern `.` (any character except a newline). -/
def RE.dotCls : RE := .cls fun c => c != '\n'

/-- Pattern `.+`. -/
def RE.dotPlus : RE := .seq RE.dotCls (.star RE.dotCls)

/-- Pattern `\??`. -/
def RE.optQn : RE := .alt .eps (RE.lit '?')

/-- Right-nested sequencing of a pattern list. -/
def RE.cat (rs : List RE) : RE := rs.foldr RE.seq RE.eps

/-- The `_QUICK_ANSWER_PATTERNS` table of `backend/manager.py`, one
full-match regex per source pattern, in source order. -/
def quickAnswerPatterns : List RE :=
  [ RE.cat [RE.wsStar, RE.word "who", RE.wsPlus, RE.word "is", RE.wsPlus, RE.dotPlus, RE.optQn, RE.wsStar]
  , RE.cat [RE.wsStar, RE.word "who", RE.wsPlus, RE.word "are", RE.wsPlus, RE.dotPlus, RE.optQn, RE.wsStar]
  , RE.cat [RE.wsStar, RE.word "who", RE.wsPlus, RE.word "founded", RE.wsPlus, RE.dotPlus, RE.optQn, RE.wsStar]
  , RE.cat [RE.wsStar, RE.word "who", RE.wsPlus, RE.word "owns", RE.wsPlus, RE.dotPlus, RE.optQn, RE.wsStar]
  , RE.cat [RE.wsStar, RE.word "what", RE.wsPlus, RE.word "is", RE.wsPlus, RE.dotPlus, RE.optQn, RE.wsStar]
  , RE.cat [RE.wsStar, RE.word "what", RE.wsPlus, RE.word "does", RE.wsPlus, RE.dotPlus, RE.wsPlus, RE.word "do", RE.optQn, RE.wsStar]
  , RE.cat [RE.wsStar, RE.word "what", RE.wsPlus, RE.word "does", RE.wsPlus, RE.dotPlus, RE.wsPlus, RE.word "make", RE.optQn, RE.wsStar]
  , RE.cat [RE.wsStar, RE.word "where", RE.wsPlus, RE.word "is", RE.wsPlus, RE.dotPlus, RE.wsPlus, RE.alt (RE.word "headquartered") (RE.word "based"), RE.optQn, RE.wsStar]
  , RE.cat [RE.wsStar, RE.word "when", RE.wsPlus, RE.word "was", RE.wsPlus, RE.dotPlus, RE.wsPlus, RE.word "founded", RE.optQn, RE.wsStar]
  , RE.cat [RE.wsStar, RE.word "how", RE.wsPlus, RE.word "many", RE.wsPlus, RE.word "employees", RE.wsPlus, RE.word "does", RE.wsPlus, RE.dotPlus, RE.wsPlus, RE.word "have", RE.optQn, RE.wsStar]
  , RE.cat [RE.wsStar, RE.word "how", RE.wsPlus, RE.word "much", RE.wsPlus, RE.word "is", RE.wsPlus, RE.dotPlus, RE.wsPlus, RE.word "worth", RE.optQn, RE.wsStar]
  ]

/-- The `_FULL_REPORT_KEYWORDS` table of `backend/manager.py`. -/
def fullReportKeywords : List Str :=
  [ "research".data, "competitor".data, "analysis".data, "analyze".data
  , "market report".data, "swot".data, "pricing analysis".data
  , "write a memo".data, "memo".data, "report".data ]

/-- The `lookup_terms` table inside `detect_intent`. -/
def lookupTerms : List Str :=
  [ "ceo".data, "founder".data, "founded".data, "headquartered".data
  , "headquarters".data, "hq".data, "ticker".data, "employees".data
  , "net worth".data, "market cap".data, "revenue".data ]

/-- The tuple of question starters of `msg.startswith(...)` in
`detect_intent`. -/
def questionStarters : List Str :=
  [ "who ".data, "where ".data, "when ".data, "what ".data
  , "how many ".data, "how much ".data ]

inductive IntentType where
  | quick_answer
  | full_report
deriving DecidableEq

/-- Embedding of `detect_intent` (backend/manager.py): full-report trigger
keywords first, then the quick-question patterns, then the
short-message-with-lookup-term heuristic, defaulting to a full report. -/
def detect_intent (user_message : String) : IntentType :=
  let msg : Str := normalizeMsg user_message
  if fullReportKeywords.any fun kw => listContains kw msg then .full_report
  else if quickAnswerPatterns.any fun p => p.matchList msg then .quick_answer
  else if msg.length ≤ 140 && (lookupTerms.any fun t => listContains t msg) then
    if listContains ['?'] msg || (questionStarters.any fun q => listStartsWith q msg) then
      .quick_answer
    else .full_report
  else .full_report

example : detect_intent "Who is the CEO of Tesla?" = .quick_answer := by decide
example : detect_intent "Research Nvidia ticker NVDA" = .full_report := by decide
example : detect_intent "What does Nvidia make?" = .quick_answer := by decide

/-! ## Domain gate (`classify_domain`)

The gate issues one LLM call and post-processes the reply.  The LLM and
the standard-library JSON decoder are external collaborators, modelled as
oracles: `LLMCallOutcome` is the outcome of `llm.call(messages)` and
`JsonParseOutcome` the outcome of `json.loads` on the returned text.  A
Python value that may or may not be a string (`data.get(...)`) is
modelled by `PyVal`.
-/

/-- A JSON-decoded Python value as far as the gate inspects it: a string,
or some other value (number, list, object, `None` is the absent case of
`Option PyVal`). -/
inductive PyVal where
  | pstr (s : String)
  | otherVal
deriving DecidableEq

/-- The three fields `classify_domain` reads off the decoded object. -/
structure JsonDict where
  domain : Option PyVal
  category : Option PyVal
  reason : Option PyVal
deriving DecidableEq

/-- Outcome of `llm.call(messages)`: raised, returned a non-string, or
returned the string `s`. -/
inductive LLMCallOutcome where
  | raises
  | returnsNonStr
  | returnsStr (s : String)

/-- Outcome of `json.loads(raw)`: raised, produced a non-dict value (on
which the subsequent `data.get` raises `AttributeError`), or produced an
object with the modelled fields. -/
inductive JsonParseOutcome where
  | raisesJson
  | nonDict
  | dict (d : JsonDict)

/-- The classification record returned by `classify_domain`. -/
structure Classification where
  domain : String
  category : String
  reason : String
deriving DecidableEq

def allowedDomains : List String := ["in_domain", "out_of_domain"]

def allowedCategories : List String :=
  [ "company_research", "financial_metric", "stock_market"
  , "executive_lookup", "business_question", "life_advice"
  , "recipe", "health", "other" ]

/-- Coercion of the decoded `domain` value (`if domain not in
allowed_domains: domain = "out_of_domain"`). -/
def coerceDomainVal : Option PyVal → String
  | some (.pstr s) => if allowedDomains.contains s then s else "out_of_domain"
  | _ => "out_of_domain"

/-- Coercion of the decoded `category` value. -/
def coerceCategoryVal : Option PyVal → String
  | some (.pstr s) => if allowedCategories.contains s then s else "other"
  | _ => "other"

/-- Coercion of the decoded `reason` value (`if not isinstance(reason,
str) or not reason.strip(): reason = "unspecified"`). -/
def coerceReasonVal : Option PyVal → String
  | some (.pstr s) => if (pyStrip s.toList).isEmpty then "unspecified" else s
  | _ => "unspecified"

/-- Embedding of `classify_domain` (backend/manager.py).  `llm = none`
models a falsy `llm` argument (test bypass).  The `.error` case is the
uncaught `AttributeError` of `data.get` on a decoded non-dict value. -/
def classify_domain (llm : Option LLMCallOutcome)
    (jsonParse : String → JsonParseOutcome) : Except Unit Classification :=
  match llm with
  | none => .ok ⟨"in_domain", "business_question", "llm_missing"⟩
  | some .raises => .ok ⟨"in_domain", "business_question", "llm_call_failed"⟩
  | some .returnsNonStr => .ok ⟨"out_of_domain", "other", "empty_llm_output"⟩
  | some (.returnsStr raw) =>
    if (pyStrip raw.toList).isEmpty then
      .ok ⟨"out_of_domain", "other", "empty_llm_output"⟩
    else
      match jsonParse raw with
      | .raisesJson => .ok ⟨"out_of_domain", "other", "invalid_json"⟩
      | .nonDict => .error ()
      | .dict d =>
          .ok ⟨coerceDomainVal d.domain, coerceCategoryVal d.category,
               coerceReasonVal d.reason⟩

/-! ## Result schemas (backend/schemas.py)

Structured step results.  String fields keep the `"unknown"` sentinel
convention of the source; optional floats of the price-performance block
are modelled as exact rationals.
-/

structure Source where
  title : String
  url : String
  snippet : Option String := none
  published_date : Option String := none
deriving DecidableEq

structure CompanyOverview where
  description : String
  founded : String := "unknown"
  hq_location : String := "unknown"
  employees : String := "unknown"
  executives : List String := []
deriving DecidableEq

structure RecentDevelopments where
  product_news : List String := []
  partnerships_and_deals : List String := []
  org_changes : List String := []
deriving DecidableEq

structure ProductsPricing where
  core_products : List String := []
  pricing_model : String := "unknown"
  competitive_differentiation : List String := []
deriving DecidableEq

structure NewsResearchResult where
  company_overview : CompanyOverview
  recent_developments : RecentDevelopments
  products_pricing : ProductsPricing
  sources : List Source := []
deriving DecidableEq

structure PricePerformance where
  as_of : String
  last_close : Option ℚ := none
  change_5d_pct : Option ℚ := none
  change_1m_pct : Option ℚ := none
  change_6m_pct : Option ℚ := none
deriving DecidableEq

structure FinancialOverview where
  ticker : String := "unknown"
  market_cap : String := "unknown"
  revenue : String := "unknown"
  revenue_growth : String := "unknown"
  profitability : String := "unknown"
  burn_rate : String := "unknown"
  funding_and_valuation : String := "unknown"
  price_performance : Option PricePerformance := none
  notes : List String := []
deriving DecidableEq

structure FinancialAnalysisResult where
  financial_overview : FinancialOverview
  sources : List Source := []
deriving DecidableEq

structure ManagerParsedPrompt where
  competitor_name : String
  ticker : Option String := none
  industry : Option String := none
  region : Option String := none
  time_horizon : Option String := none
  keywords : List String := []
deriving DecidableEq

structure ManagerState where
  competitor_name : String
  parsed_prompt : ManagerParsedPrompt
  company_overview : Option CompanyOverview := none
  recent_developments : Option RecentDevelopments := none
  products_pricing : Option ProductsPricing := none
  financial_overview : Option FinancialOverview := none
  sources : List Source := []
deriving DecidableEq

/-- Modelled from the spec: `QuickAnswerResult` is imported from
`backend.schemas` by the manager and the news researcher but its class
definition is absent from the source tree; §3 of the specification gives
its fields {answer, source_url, confidence ∈ {low, medium, high},
query_used}, and confidence is carried as a plain string here. -/
structure QuickAnswerResult where
  answer : String
  source_url : String
  confidence : String
  query_used : String
deriving DecidableEq

/-- The `swot` mapping of `ReportMemo`: a `Dict` admitting any subset of
the four fixed keys, read back with `.get(key, [])`. -/
structure SwotMap where
  strengths : Option (List String) := none
  weaknesses : Option (List String) := none
  opportunities : Option (List String) := none
  threats : Option (List String) := none
deriving DecidableEq

structure ReportMemo where
  competitor_name : String
  date_label : String := "January 2025"
  executive_summary : List String
  company_overview : CompanyOverview
  recent_developments : RecentDevelopments
  financial_overview : FinancialOverview
  products_pricing : ProductsPricing
  swot : SwotMap
  key_takeaways : List String
deriving DecidableEq

/-- The `bullets` helper inside `ReportMemo.render_markdown`. -/
def bullets (items : List String) : String :=
  if items.isEmpty then "- unknown"
  else String.intercalate "\n" (items.map fun i => "- " ++ i)

/-- Interpolation of an optional float by the renderer (formatting of the
decimal representation is not claim-relevant; rationals print exactly). -/
def pyShowOptRat : Option ℚ → String
  | none => "None"
  | some q => toString q

/-- Embedding of `ReportMemo.render_markdown` (backend/schemas.py). -/
def ReportMemo.render_markdown (r : ReportMemo) : String :=
  let co := r.company_overview
  let rd := r.recent_developments
  let pp := r.products_pricing
  let fo := r.financial_overview
  let base : List String :=
    [ "Market Report: **" ++ r.competitor_name ++ "**"
    , "date: **" ++ r.date_label ++ "**"
    , ""
    , "**Executive Summary**"
    , bullets r.executive_summary
    , ""
    , "**Company Overview**"
    , "- description of the business  \n  " ++ co.description
    , "- founded (year/date)  \n  " ++ co.founded
    , "- location  \n  " ++ co.hq_location
    , "- employees (headcount)  \n  " ++ co.employees
    , "- executives/leadership (CEO, founders)  \n  " ++
        (if co.executives.isEmpty then "unknown"
         else String.intercalate "; " co.executives)
    , ""
    , "**Recent Developments**"
    , "- product news/updates / new products"
    , bullets rd.product_news
    , "- partnerships and deals"
    , bullets rd.partnerships_and_deals
    , "- organizational changes"
    , bullets rd.org_changes
    , ""
    , "**Financial Overview**"
    , "- revenue & growth"
    , "- " ++ fo.revenue ++ " | growth: " ++ fo.revenue_growth
    , "- funding & valuation"
    , "- " ++ fo.funding_and_valuation
    , "- profitability & burn rate"
    , "- profitability: " ++ fo.profitability ++ " | burn rate: " ++ fo.burn_rate ]
  let perfLines : List String :=
    match fo.price_performance with
    | some perf =>
        [ "- price performance (as of " ++ perf.as_of ++ "): last close " ++
            pyShowOptRat perf.last_close ++ "; 5d " ++
            pyShowOptRat perf.change_5d_pct ++ "%; 1m " ++
            pyShowOptRat perf.change_1m_pct ++ "%; 6m " ++
            pyShowOptRat perf.change_6m_pct ++ "%" ]
    | none => []
  let noteLines : List String :=
    if fo.notes.isEmpty then [] else ["- notes", bullets fo.notes]
  let tail : List String :=
    [ ""
    , "**Products & Pricing**"
    , "- core products"
    , bullets pp.core_products
    , "- pricing model"
    , "- " ++ pp.pricing_model
    , "- competitive differentiation"
    , bullets pp.competitive_differentiation
    , ""
    , "**SWOT Analysis**"
    , "- strengths (internal +)"
    , bullets (r.swot.strengths.getD [])
    , "- weaknesses (internal -)"
    , bullets (r.swot.weaknesses.getD [])
    , "- opportunities (external +)"
    , bullets (r.swot.opportunities.getD [])
    , "- threats (external -)"
    , bullets (r.swot.threats.getD [])
    , ""
    , "**Key Takeaways**"
    , bullets r.key_takeaways ]
  String.intercalate "\n" (base ++ perfLines ++ noteLines ++ tail)

/-! ## Completeness checker (`_needs_second_search`) -/

/-- `s.strip().lower()` on a schema string field. -/
def pyStripLower (s : String) : Str := pyLower (pyStrip s.toList)

/-- Embedding of `_needs_second_search` (backend/manager.py): counts the
missing completeness signals exactly as the sequential `missing += 1`
updates of the source do, then tests `missing >= 3`. -/
def _needs_second_search (nr : NewsResearchResult) : Bool :=
  let co := nr.company_overview
  let missing : ℕ := 0
  let missing :=
    if co.description.isEmpty ||
        (pyStripLower co.description == "unknown".data ||
         pyStripLower co.description == "n/a".data) then missing + 1 else missing
  let missing := if pyStripLower co.founded == "unknown".data then missing + 1 else missing
  let missing := if pyStripLower co.hq_location == "unknown".data then missing + 1 else missing
  let missing := if co.executives.isEmpty then missing + 1 else missing
  decide (3 ≤ missing)

/-- Specification-side reading of the first completeness signal: the
description is missing/unknown. -/
def descriptionSignalMissing (co : CompanyOverview) : Bool :=
  co.description.isEmpty ||
    (pyStripLower co.description == "unknown".data ||
     pyStripLower co.description == "n/a".data)

/-- Specification-side reading of the founded signal. -/
def foundedSignalMissing (co : CompanyOverview) : Bool :=
  pyStripLower co.founded == "unknown".data

/-- Specification-side reading of the HQ-location signal. -/
def hqSignalMissing (co : CompanyOverview) : Bool :=
  pyStripLower co.hq_location == "unknown".data

/-- Specification-side reading of the executives signal: the list is
empty. -/
def executivesSignalMissing (co : CompanyOverview) : Bool :=
  co.executives.isEmpty

/-- The number of missing completeness signals among the four tracked
ones. -/
def missingSignalCount (co : CompanyOverview) : ℕ :=
  (if descriptionSignalMissing co then 1 else 0) +
  (if foundedSignalMissing co then 1 else 0) +
  (if hqSignalMissing co then 1 else 0) +
  (if executivesSignalMissing co then 1 else 0)

/-! ## Quick-answer post-processing (`_run_quick_answer`)

The answer sentence assembled at the end of `_run_quick_answer`
(backend/manager.py, lines 433-445): whitespace collapse, bullet strip,
truncation at the first terminal punctuation mark, and the conditional
parenthesised citation.
-/

/-- A terminal punctuation mark: the class `[.!?]` of the source. -/
def isTermMark (c : Char) : Bool := c == '.' || c == '!' || c == '?'

/-- Run collapse: every maximal run of characters satisfying `p` becomes
one space.  The flag records whether the previous character belonged to a
run. -/
def collapseRunsAux (p : Char → Bool) : Bool → Str → Str
  | _, [] => []
  | inRun, c :: cs =>
    if p c then
      if inRun then collapseRunsAux p true cs
      else ' ' :: collapseRunsAux p true cs
    else c :: collapseRunsAux p false cs

/-- `re.sub(r"\s+", " ", s)`. -/
def collapseWsRuns (l : Str) : Str := collapseRunsAux isPyWs false l

/-- `re.sub(r"\n+", " ", s)` (a no-op after the previous collapse, kept
for fidelity). -/
def collapseNlRuns (l : Str) : Str := collapseRunsAux (· == '\n') false l

/-- `re.sub(r"^[-*•]\s+", "", s)`: one leading bullet character followed
by at least one whitespace character is removed (the `\s+` is greedy). -/
def stripBullet (l : Str) : Str :=
  match l with
  | [] => []
  | c :: rest =>
    if c == '-' || c == '*' || c == '•' then
      match rest with
      | d :: _ => if isPyWs d then rest.dropWhile isPyWs else l
      | [] => l
    else l

/-- `re.search(r"[.!?]", s)` decomposed: the mark-free part before the
first terminal mark, the mark, and the remainder. -/
def splitAtFirstMark : Str → Option (Str × Char × Str)
  | [] => none
  | c :: cs =>
    if isTermMark c then some ([], c, cs)
    else
      match splitAtFirstMark cs with
      | some (p, m, s) => some (c :: p, m, s)
      | none => none

/-- Python `s.rstrip(".")`. -/
def rstripDots (l : Str) : Str := (l.reverse.dropWhile (· == '.')).reverse

/-- The truncated single-sentence answer: strip, collapse whitespace and
newlines, strip a bullet marker, then cut after the first terminal mark
(`answer[: m.end()].strip()`), or `answer.rstrip(".") + "."` when no mark
exists. -/
def truncateAnswer (answer : String) : Str :=
  match splitAtFirstMark (stripBullet (collapseNlRuns (collapseWsRuns (pyStrip answer.toList)))) with
  | some (p, m, _) => pyStrip (p ++ [m])
  | none =>
    rstripDots (stripBullet (collapseNlRuns (collapseWsRuns (pyStrip answer.toList)))) ++ ['.']

/-- The citation condition `qa.source_url and qa.source_url not in
answer` (tested against the already-truncated answer). -/
def appendCitationCond (truncated : Str) (url : String) : Bool :=
  !url.isEmpty && !listContains url.toList truncated

/-- The full post-processing of `_run_quick_answer`: the truncated answer
plus, when the citation condition holds,
`answer.rstrip(".") + f" ({qa.source_url})."`. -/
def processQuickAnswer (answer url : String) : Str :=
  let t := truncateAnswer answer
  if appendCitationCond t url then
    rstripDots t ++ (' ' :: '(' :: url.toList ++ [')', '.'])
  else t

/-- Does the reply end with exactly one terminal punctuation mark (a mark
as last character, not preceded by another mark)? -/
def endsWithExactlyOneMark (l : Str) : Bool :=
  match l.reverse with
  | [] => false
  | [c] => isTermMark c
  | c :: d :: _ => isTermMark c && !isTermMark d

/-- Number of terminal punctuation marks outside any parenthesised
region, tracking the depth of unmatched opening parentheses (the reading
of "outside of any parenthetical URL" used by the repository's own test,
which blanks `"(https://...)"` spans before counting). -/
def countMarksAux : Str → ℕ → ℕ
  | [], _ => 0
  | c :: cs, d =>
    if c == '(' then countMarksAux cs (d + 1)
    else if c == ')' then countMarksAux cs (d - 1)
    else if isTermMark c && d == 0 then countMarksAux cs d + 1
    else countMarksAux cs d

def countMarksOutsideParens (l : Str) : ℕ := countMarksAux l 0

/-- Does the string contain no parenthesis characters? -/
def parenFreeB (l : Str) : Bool := l.all fun c => !(c == '(') && !(c == ')')

/-- Does the (truncated) answer end in `!` or `?`? -/
def endsBangOrQn (l : Str) : Bool :=
  match l.reverse with
  | c :: _ => c == '!' || c == '?'
  | [] => false

example : processQuickAnswer "The CEO of Tesla is Elon Musk." "https://www.tesla.com/leadership" =
    "The CEO of Tesla is Elon Musk (https://www.tesla.com/leadership).".toList := by decide

/-! ## Financial-data adapter (backend/tools/alpha_vantage.py)

`AlphaVantageClient._get` performs up to `max_retries + 1` HTTP attempts.
An attempt either fails in transport (modelled as `transportError`) or
yields a decoded 200 payload, of which the adapter inspects the three
soft-error keys.  Every raise inside the `try` block — including the
deliberate `AlphaVantageError` raises for soft errors — lands in the
blanket `except` clause, which retries while attempts remain.
-/

/-- The soft-error keys of a decoded 200 payload; `none` models an absent
key, `some ""` an empty value (falsy in the `or` chain but key-present). -/
structure AVResponse where
  information : Option String := none
  note : Option String := none
  errorMessage : Option String := none
deriving DecidableEq

/-- One HTTP attempt: transport/HTTP/JSON failure, or a decoded payload. -/
inductive AVAttempt where
  | transportError
  | httpOk (data : AVResponse)
deriving DecidableEq

/-- Python `a or b` on optional strings (`None` and `""` are falsy). -/
def pyOrOpt (a b : Option String) : Option String :=
  match a with
  | some s => if s.isEmpty then b else some s
  | none => b

/-- The body of one `try` block of `_get`: raise on transport failure;
on a decoded payload holding a truthy soft-error message raise
`AlphaVantageError(msg)` — via the daily-quota branch (no sleep) when the
lowercased message contains "per day", via the backoff branch otherwise —
and return the payload in every other case. -/
def avAttemptBody (a : AVAttempt) : Except String AVResponse :=
  match a with
  | .transportError => .error "HTTPError"
  | .httpOk d =>
    if d.information.isSome || d.note.isSome || d.errorMessage.isSome then
      match pyOrOpt d.information (pyOrOpt d.note d.errorMessage) with
      | some msg =>
        if !msg.isEmpty then
          if listContains "per day".data (pyLower msg.toList) then
            .error msg
          else
            .error msg
        else .ok d
      | none => .ok d
    else .ok d

/-- The retry loop of `_get` from iteration `attempt` on, with
`remaining = max_retries - attempt` further iterations allowed (so
`remaining > 0` is the source's `attempt < max_retries`): on a body
failure the `except` clause stores the error and continues while
iterations remain, after which the loop raises the wrapping
`AlphaVantageError`.  Returns the outcome and the number of attempts
performed. -/
def avGetAux (outcome : ℕ → AVAttempt) : (remaining attempt : ℕ) →
    Except String AVResponse × ℕ
  | remaining, attempt =>
    match avAttemptBody (outcome attempt) with
    | .ok d => (.ok d, attempt + 1)
    | .error e =>
      match remaining with
      | r + 1 => avGetAux outcome r (attempt + 1)
      | 0 => (.error ("Alpha Vantage request failed: " ++ e), attempt + 1)

/-- Embedding of `AlphaVantageClient._get` with its default
`max_retries = 2`. -/
def alphaVantageGet (outcome : ℕ → AVAttempt) (maxRetries : ℕ := 2) :
    Except String AVResponse × ℕ :=
  avGetAux outcome maxRetries 0

/-! ## Price-performance summary (`summarize_price_performance`)

The provider's decimal strings are parsed by `_safe_float`; its numeric
result is modelled as an exact rational (`float` rounding is not
claim-relevant; exponent/infinity spellings accepted by Python's `float`
are outside the decimal grammar the provider emits and are not
modelled). -/

/-- Value of a digit string. -/
def digitsVal (l : Str) : ℕ := l.foldl (fun n c => 10 * n + (c.toNat - 48)) 0

/-- `float(s)` on an unsigned decimal (`"12"`, `"12.5"`, `"12."`,
`".5"`). -/
def parseUnsignedDecimal (l : Str) : Option ℚ :=
  let ip := l.takeWhile Char.isDigit
  let rest := l.dropWhile Char.isDigit
  match rest with
  | [] => if ip.isEmpty then none else some (digitsVal ip)
  | '.' :: frac =>
    if frac.all Char.isDigit && !(ip.isEmpty && frac.isEmpty) then
      some ((digitsVal ip : ℚ) + (digitsVal frac : ℚ) / (10 : ℚ) ^ frac.length)
    else none
  | _ => none

/-- `float(s)` with an optional sign. -/
def parseDecimal (s : String) : Option ℚ :=
  match s.toList with
  | '-' :: rest => (parseUnsignedDecimal rest).map fun q => -q
  | '+' :: rest => parseUnsignedDecimal rest
  | l => parseUnsignedDecimal l

/-- Embedding of `_safe_float` (backend/tools/alpha_vantage.py) on the
optional strings the daily series carries: `None` passes through, the
stripped string is checked against the sentinel set
`{"", "None", "null", "-"}`, and anything unparseable yields `None`. -/
def _safe_float (v : Option String) : Option ℚ :=
  match v with
  | none => none
  | some raw =>
    let s := String.mk (pyStrip raw.toList)
    if s == "" || s == "None" || s == "null" || s == "-" then none
    else parseDecimal s

/-- Embedding of `_pct` (backend/tools/alpha_vantage.py). -/
def _pct (a b : Option ℚ) : Option ℚ :=
  match a, b with
  | some x, some y => if y = 0 then none else some ((x - y) / y * 100)
  | _, _ => none

/-- One row of the `"Time Series (Daily)"` mapping: the two close fields
the summarizer reads (`"5. adjusted close"` and `"4. close"`); `none`
models an absent key. -/
structure DailyRow where
  adjustedClose : Option String := none
  close : Option String := none
deriving DecidableEq

/-- The decoded `TIME_SERIES_DAILY_ADJUSTED` payload:
`ts.get("Time Series (Daily)")`, where `none` models a missing or
non-dict value (both take the early all-`None` return). -/
structure TimeSeriesDailyAdjusted where
  timeSeries : Option (List (String × DailyRow)) := none

/-- Python `series.get(k)` (dict lookup by date key). -/
def lookupRow (series : List (String × DailyRow)) (k : String) : Option DailyRow :=
  (series.find? fun p => p.1 == k).map Prod.snd

/-- Python string `<`: lexicographic comparison of code points. -/
def strLtList : Str → Str → Bool
  | [], [] => false
  | [], _ :: _ => true
  | _ :: _, [] => false
  | a :: as, b :: bs =>
    if a.toNat < b.toNat then true
    else if b.toNat < a.toNat then false
    else strLtList as bs

/-- Python `a < b` on strings. -/
def pyStrLt (a b : String) : Bool := strLtList a.toList b.toList

/-- The descending order used by `sorted(..., reverse=True)`:
`a` precedes `b` when `a` is not smaller than `b`. -/
def strGeRel (a b : String) : Prop := pyStrLt a b = false

instance : DecidableRel strGeRel := fun a b => instDecidableEqBool (pyStrLt a b) false

/-- `sorted(series.keys(), reverse=True)`: the date keys, most recent
first (lexicographic string order, descending). -/
def sortedDatesDesc (series : List (String × DailyRow)) : List String :=
  List.insertionSort strGeRel (series.map Prod.fst)

/-- The inner `close_at(idx)` helper: `None` beyond the available
history, otherwise `_safe_float(row.get("5. adjusted close") or
row.get("4. close"))` with `row = series.get(dates[idx]) or {}`. -/
def closeAtIdx (series : List (String × DailyRow)) (dates : List String)
    (idx : ℕ) : Option ℚ :=
  if dates.length ≤ idx then none
  else
    let row := ((dates.get? idx).bind (lookupRow series)).getD {}
    _safe_float (pyOrOpt row.adjustedClose row.close)

/-- Embedding of `summarize_price_performance`
(backend/tools/alpha_vantage.py): `(as_of, last_close, pct_5d, pct_1m,
pct_6m)` with lookbacks at indices 5, 22 and 126 of the
most-recent-first date list. -/
def summarize_price_performance (ts : TimeSeriesDailyAdjusted) :
    Option String × Option ℚ × Option ℚ × Option ℚ × Option ℚ :=
  match ts.timeSeries with
  | none => (none, none, none, none, none)
  | some series =>
    if series.isEmpty then (none, none, none, none, none)
    else
      let dates := sortedDatesDesc series
      let last := closeAtIdx series dates 0
      (dates.get? 0, last, _pct last (closeAtIdx series dates 5),
        _pct last (closeAtIdx series dates 22),
        _pct last (closeAtIdx series dates 126))

/-! ## Workflow orchestrator (`run_manager_workflow`)

The orchestrator sequences the domain gate, the intent classifier and the
specialist steps.  Each crew execution is an external effect: its typed
and raw outputs (`task.output.pydantic` / `task.output.raw`) and the
verdict of a pydantic re-validation of the raw text enter as a `TaskOut`
oracle, and every executed specialist step is recorded in an effect log
(`StepCall`).  Python exceptions escaping the workflow become `WfError`
values. -/

/-- The observable output of one crew/task execution plus the validator
oracle: `pydantic` is `task.output.pydantic`, `raw` is
`task.output.raw`, and `rawValidated` is the outcome of
`T.model_validate_json(raw)` (`none` = the validation raises). -/
structure TaskOut (α : Type) where
  pydantic : Option α
  raw : Option String
  rawValidated : Option α
deriving DecidableEq

/-- An exception escaping the workflow: a step-named `RuntimeError`, an
uncaught pydantic `ValidationError` (quick-answer recovery has no
`try`), or the `AttributeError` of dereferencing a `None` result. -/
inductive WfError where
  | runtimeError (msg : String)
  | validationError (schema : String)
  | attributeError
deriving DecidableEq

/-- One specialist step execution, with the inputs it was invoked on. -/
inductive StepCall where
  | newsResearch (competitor : String) (keywords : List String)
  | newsSecondPass (competitor : String) (keywords : List String)
  | financialAnalysis (competitor : String) (ticker : Option String)
  | reportSynthesis
  | quickAnswerSearch (entity : String) (focusedQuery : String)
deriving DecidableEq

structure ManagerResult where
  state : ManagerState
  memo_markdown : String
deriving DecidableEq

/-- The environment of one request: the inbound message, the LLM and
JSON-decoder oracles of the domain gate, the (LLM-or-regex) prompt-parse
result, the entity/focused-query extraction results of the quick path
(heuristic helpers abstracted as oracles; no claim depends on their
output values), and one `TaskOut` oracle per specialist task. -/
structure WorkflowEnv where
  message : String
  llm : Option LLMCallOutcome
  jsonParse : String → JsonParseOutcome
  quickEntity : String
  quickFocusedQuery : String
  parsedPrompt : ManagerParsedPrompt
  quickTask : TaskOut QuickAnswerResult
  newsTask1 : TaskOut NewsResearchResult
  newsTask2 : TaskOut NewsResearchResult
  finTask : TaskOut FinancialAnalysisResult
  reportTask : TaskOut ReportMemo

/-- The `task.output.pydantic is None` recovery of the full-report steps:
typed result if present; otherwise one raw re-validation attempt when raw
text exists; otherwise the step's fatal `RuntimeError` (`failValMsg` for
a failed re-validation, `failRawMsg` for missing raw text). -/
def recoverStep {α : Type} (t : TaskOut α) (failValMsg failRawMsg : String) :
    Except WfError α :=
  match t.pydantic with
  | some v => .ok v
  | none =>
    match t.raw with
    | some _ =>
      match t.rawValidated with
      | some v => .ok v
      | none => .error (.runtimeError failValMsg)
    | none => .error (.runtimeError failRawMsg)

/-- The extra keywords of the targeted second search pass:
`parsed.keywords + ["CEO", "headcount", "headquarters", "founded"]`. -/
def secondPassKeywords (parsed : ManagerParsedPrompt) : List String :=
  parsed.keywords ++ ["CEO", "headcount", "headquarters", "founded"]

/-- News-step fatal message when raw re-validation also fails. -/
def newsValMsg : String :=
  "NewsResearchResult parsing failed (task.output.pydantic is None). Raw output could not be validated against schema."

/-- News-step fatal message when no raw text exists. -/
def newsRawMsg : String :=
  "NewsResearchResult parsing failed (task.output.pydantic is None). Enable CREW_VERBOSE=1 to inspect agent output."

/-- Financial-step fatal message (identical in both failure cases). -/
def finMsg : String :=
  "FinancialAnalysisResult parsing failed (task.output.pydantic is None)."

/-- Report-step fatal message (identical in both failure cases). -/
def reportMsg : String :=
  "ReportMemo parsing failed (task.output.pydantic is None)."

/-- The quick-answer branch of the workflow (`_run_quick_answer` plus the
surrounding state synthesis): one news-crew execution, validation of the
`QuickAnswerResult` (the raw re-validation here has no `try`, so its
failure escapes as a `ValidationError`), and the post-processed
one-sentence reply. -/
def runQuickAnswer (env : WorkflowEnv) : List StepCall × Except WfError ManagerResult :=
  let log := [StepCall.quickAnswerSearch env.quickEntity env.quickFocusedQuery]
  let qaE : Except WfError QuickAnswerResult :=
    match env.quickTask.pydantic with
    | some qa => .ok qa
    | none =>
      match env.quickTask.raw with
      | some _ =>
        match env.quickTask.rawValidated with
        | some qa => .ok qa
        | none => .error (.validationError "QuickAnswerResult")
      | none => .error (.runtimeError "QuickAnswerResult parsing failed")
  match qaE with
  | .error e => (log, .error e)
  | .ok qa =>
    let state : ManagerState :=
      { competitor_name := if env.quickEntity.isEmpty then "unknown" else env.quickEntity
        parsed_prompt := { competitor_name := "unknown" } }
    (log, .ok ⟨state, String.mk (processQuickAnswer qa.answer qa.source_url)⟩)

/-- The tail of the full-report branch after a news result `nr` has been
accepted: financial analysis (validated and recovered like news), the
additive state updates, and report synthesis. -/
def afterNews (env : WorkflowEnv) (parsed : ManagerParsedPrompt)
    (log : List StepCall) (nr : NewsResearchResult) :
    List StepCall × Except WfError ManagerResult :=
  let log := log ++ [StepCall.financialAnalysis parsed.competitor_name parsed.ticker]
  match recoverStep env.finTask finMsg finMsg with
  | .error e => (log, .error e)
  | .ok fa =>
    let state : ManagerState :=
      { competitor_name := parsed.competitor_name
        parsed_prompt := parsed
        company_overview := some nr.company_overview
        recent_developments := some nr.recent_developments
        products_pricing := some nr.products_pricing
        financial_overview := some fa.financial_overview
        sources := nr.sources ++ fa.sources }
    let log := log ++ [StepCall.reportSynthesis]
    match recoverStep env.reportTask reportMsg reportMsg with
    | .error e => (log, .error e)
    | .ok report => (log, .ok ⟨state, report.render_markdown⟩)

/-- The full-report branch (backend/manager.py, lines 475-628): news
research with validation/recovery, the completeness-checker second pass
(whose typed result is dereferenced directly: a `None` there is an
`AttributeError`, and the first pass's result — including its sources —
is discarded), then `afterNews`. -/
def runFullReport (env : WorkflowEnv) (parsed : ManagerParsedPrompt) :
    List StepCall × Except WfError ManagerResult :=
  let log := [StepCall.newsResearch parsed.competitor_name parsed.keywords]
  match recoverStep env.newsTask1 newsValMsg newsRawMsg with
  | .error e => (log, .error e)
  | .ok nr =>
    if _needs_second_search nr then
      let log := log ++ [StepCall.newsSecondPass parsed.competitor_name (secondPassKeywords parsed)]
      match env.newsTask2.pydantic with
      | none => (log, .error .attributeError)
      | some nr2 => afterNews env parsed log nr2
    else afterNews env parsed log nr

/-- The fixed refusal sentence of the rejection path. -/
def fixedRefusal : String :=
  "I can only help with company, business, finance, and stock-related questions—please try another question."

/-- Embedding of `run_manager_workflow` (backend/manager.py): domain gate
first (its uncaught `AttributeError` propagates), the terminal rejection
for out-of-domain classifications, then intent-based dispatch. -/
def run_manager_workflow (env : WorkflowEnv) :
    List StepCall × Except WfError ManagerResult :=
  match classify_domain env.llm env.jsonParse with
  | .error _ => ([], .error .attributeError)
  | .ok classification =>
    if classification.domain == "out_of_domain" then
      ([], .ok ⟨{ competitor_name := "unknown"
                  parsed_prompt := { competitor_name := "unknown" } }, fixedRefusal⟩)
    else
      match detect_intent env.message with
      | .quick_answer => runQuickAnswer env
      | .full_report => runFullReport env env.parsedPrompt

/-! ## Observation helpers and demonstration data -/

/-- Is a log entry the targeted second news pass? -/
def isSecondPass : StepCall → Bool
  | .newsSecondPass _ _ => true
  | _ => false

/-- Number of second news passes in an effect log. -/
def countSecondPasses (log : List StepCall) : ℕ := log.countP isSecondPass

/-- Is a log entry one of the two steps following news research? -/
def isPostNewsStep : StepCall → Bool
  | .financialAnalysis _ _ => true
  | .reportSynthesis => true
  | _ => false

/-- The sources of a workflow outcome (empty when the request failed). -/
def resultSources : Except WfError ManagerResult → List Source
  | .ok r => r.state.sources
  | .error _ => []

/-- A task whose typed output parsed. -/
def typedTask {α : Type} (v : α) : TaskOut α := ⟨some v, none, none⟩

/-- A task with neither typed nor raw output. -/
def absentTask {α : Type} : TaskOut α := ⟨none, none, none⟩

def demoParsedPrompt : ManagerParsedPrompt :=
  { competitor_name := "Nvidia", ticker := some "NVDA", keywords := ["GPUs"] }

/-- A complete overview: no completeness signal missing. -/
def demoOverviewComplete : CompanyOverview :=
  { description := "Designs GPUs", founded := "1993", hq_location := "Santa Clara"
    employees := "29600", executives := ["Jensen Huang"] }

/-- An overview with all four completeness signals missing. -/
def demoOverviewIncomplete : CompanyOverview := { description := "unknown" }

/-- An overview with exactly two completeness signals missing (founded
and HQ). -/
def demoOverviewTwoMissing : CompanyOverview :=
  { description := "Designs GPUs", executives := ["Jensen Huang"] }

def demoSourceFirst : Source := { title := "first", url := "https://first.example" }

def demoSourceSecond : Source := { title := "second", url := "https://second.example" }

def demoSourceFin : Source := { title := "fin", url := "https://fin.example" }

/-- An incomplete first-pass news result carrying one source. -/
def demoNews1 : NewsResearchResult :=
  { company_overview := demoOverviewIncomplete, recent_developments := {}
    products_pricing := {}, sources := [demoSourceFirst] }

/-- A complete second-pass news result carrying a different source. -/
def demoNews2 : NewsResearchResult :=
  { company_overview := demoOverviewComplete, recent_developments := {}
    products_pricing := {}, sources := [demoSourceSecond] }

def demoFin : FinancialAnalysisResult :=
  { financial_overview := { ticker := "NVDA" }, sources := [demoSourceFin] }

def demoReport : ReportMemo :=
  { competitor_name := "Nvidia", executive_summary := ["x"]
    company_overview := demoOverviewComplete, recent_developments := {}
    financial_overview := { ticker := "NVDA" }, products_pricing := {}
    swot := {}, key_takeaways := ["y"] }

/-- A full-report request whose incomplete first news pass triggers the
second pass, with every specialist task producing a typed result. -/
def demoEnvSecondPass : WorkflowEnv :=
  { message := "Research Nvidia ticker NVDA"
    llm := none
    jsonParse := fun _ => .raisesJson
    quickEntity := "Nvidia"
    quickFocusedQuery := "Nvidia ticker symbol"
    parsedPrompt := demoParsedPrompt
    quickTask := absentTask
    newsTask1 := typedTask demoNews1
    newsTask2 := typedTask demoNews2
    finTask := typedTask demoFin
    reportTask := typedTask demoReport }

/-- Like `demoEnvSecondPass`, but the second pass produces no typed
result while its raw text validates against the schema. -/
def demoEnvSecondPassRaw : WorkflowEnv :=
  { demoEnvSecondPass with
      newsTask2 := ⟨none, some "\x7bvalid json\x7d", some demoNews2⟩ }

/-- A request the domain gate rejects: the LLM answers with text that is
not JSON, which the gate coerces to an out-of-domain classification. -/
def demoEnvOutOfDomain : WorkflowEnv :=
  { demoEnvSecondPass with
      message := "How do I become a CEO?"
      llm := some (.returnsStr "gibberish") }

/-- Like `demoEnvSecondPass`, but the first news pass recovers from raw
text. -/
def demoEnvNewsRecovered : WorkflowEnv :=
  { demoEnvSecondPass with newsTask1 := ⟨none, some "raw", some demoNews1⟩ }

/-- A daily-quota soft-error payload (HTTP 200). -/
def demoDailyQuota : AVResponse :=
  { information := some "Our standard API rate limit is 25 requests per day." }

/-- Six trading days of closes (unsorted order as a JSON object would
carry them). -/
def demoSeries : List (String × DailyRow) :=
  [ ("2024-01-01", { adjustedClose := some "100" })
  , ("2024-01-02", { adjustedClose := some "120" })
  , ("2024-01-03", { adjustedClose := some "120" })
  , ("2024-01-04", { adjustedClose := some "120" })
  , ("2024-01-05", { adjustedClose := some "120" })
  , ("2024-01-06", { adjustedClose := some "150" }) ]

/-! ## Theorems -/

/-- C2: every message containing a full-report trigger phrase (in the
normalized message the classifier inspects) is routed to `full_report`,
overriding the quick-answer patterns checked later; and on the two
concrete examples, `detect_intent "Who is the CEO of Tesla?"` is
`quick_answer` while `detect_intent "Research Nvidia ticker NVDA"` is
`full_report`. -/
theorem detect_intent_full_report_override :
    (∀ m : String,
        (fullReportKeywords.any fun kw => listContains kw (normalizeMsg m)) = true →
        detect_intent m = .full_report)
    ∧ detect_intent "Who is the CEO of Tesla?" = .quick_answer
    ∧ detect_intent "Research Nvidia ticker NVDA" = .full_report := by
  refine ⟨fun m h => ?_, by decide, by decide⟩
  unfold detect_intent
  simp [h]

/-- Witness for C2 at a message matched both by a trigger keyword and by
a quick-answer pattern shape. -/
theorem detect_intent_full_report_override_witness :
    (fullReportKeywords.any fun kw =>
        listContains kw (normalizeMsg "Research who founded Nvidia")) = true
    ∧ detect_intent "Research who founded Nvidia" = .full_report :=
  ⟨by decide,
   detect_intent_full_report_override.1 "Research who founded Nvidia" (by decide)⟩

/-- C4: the domain gate fails open (`in_domain`) when the LLM call
raises; fails closed (`out_of_domain`) on empty/non-string output and on
output that is not JSON-decodable; coerces out-of-enumeration `domain` /
`category` values to `out_of_domain` / `other`; and replaces a missing or
blank `reason` with "unspecified". -/
theorem classify_domain_failure_policy :
    (∀ jp : String → JsonParseOutcome, classify_domain (some .raises) jp =
        .ok ⟨"in_domain", "business_question", "llm_call_failed"⟩)
    ∧ (∀ jp : String → JsonParseOutcome, classify_domain (some .returnsNonStr) jp =
        .ok ⟨"out_of_domain", "other", "empty_llm_output"⟩)
    ∧ (∀ (jp : String → JsonParseOutcome) (s : String),
        pyStrip s.toList = [] →
        classify_domain (some (.returnsStr s)) jp =
          .ok ⟨"out_of_domain", "other", "empty_llm_output"⟩)
    ∧ (∀ (jp : String → JsonParseOutcome) (s : String),
        pyStrip s.toList ≠ [] → jp s = .raisesJson →
        classify_domain (some (.returnsStr s)) jp =
          .ok ⟨"out_of_domain", "other", "invalid_json"⟩)
    ∧ (∀ (jp : String → JsonParseOutcome) (s : String) (d : JsonDict),
        pyStrip s.toList ≠ [] → jp s = .dict d →
        classify_domain (some (.returnsStr s)) jp =
          .ok ⟨coerceDomainVal d.domain, coerceCategoryVal d.category,
               coerceReasonVal d.reason⟩)
    ∧ (∀ v : Option PyVal,
        (∀ s, v = some (.pstr s) → s ∉ allowedDomains) →
        coerceDomainVal v = "out_of_domain")
    ∧ (∀ v : Option PyVal,
        (∀ s, v = some (.pstr s) → s ∉ allowedCategories) →
        coerceCategoryVal v = "other")
    ∧ (∀ v : Option PyVal,
        (∀ s, v = some (.pstr s) → pyStrip s.toList = []) →
        coerceReasonVal v = "unspecified") := by
  refine ⟨fun jp => rfl, fun jp => rfl, fun jp s h => ?_, fun jp s h hj => ?_,
    fun jp s d h hj => ?_, ?_, ?_, ?_⟩
  · simp only [String.toList] at h
    simp [classify_domain, h]
  · simp only [String.toList] at h
    simp [classify_domain, h, hj]
  · simp only [String.toList] at h
    simp [classify_domain, h, hj]
  · rintro (_ | v) hv
    · rfl
    · cases v with
      | pstr s => simp [coerceDomainVal, hv s rfl]
      | otherVal => rfl
  · rintro (_ | v) hv
    · rfl
    · cases v with
      | pstr s => simp [coerceCategoryVal, hv s rfl]
      | otherVal => rfl
  · rintro (_ | v) hv
    · rfl
    · cases v with
      | pstr s =>
        have hc := hv s rfl
        simp only [String.toList] at hc
        simp [coerceReasonVal, hc]
      | otherVal => rfl

/-- Witness for C4: a transport failure is fail-open, and a decoded
object with out-of-enumeration values is coerced field by field. -/
theorem classify_domain_failure_policy_witness :
    classify_domain (some .raises) (fun _ => .raisesJson) =
      .ok ⟨"in_domain", "business_question", "llm_call_failed"⟩
    ∧ classify_domain (some (.returnsStr "x"))
        (fun _ => .dict ⟨some (.pstr "banana"), some .otherVal, some (.pstr "  ")⟩) =
      .ok ⟨"out_of_domain", "other", "unspecified"⟩ := by
  constructor
  · exact classify_domain_failure_policy.1 (fun _ => .raisesJson)
  · have h := classify_domain_failure_policy.2.2.2.2.1
      (fun _ => .dict ⟨some (.pstr "banana"), some .otherVal, some (.pstr "  ")⟩)
      "x" ⟨some (.pstr "banana"), some .otherVal, some (.pstr "  ")⟩ (by decide) rfl
    rw [h]
    decide

/-- C10: `_pct` is total and division-safe: it yields `None` exactly when
an operand is absent or the baseline is zero, and otherwise computes the
percentage change, so a zero or missing historical close can never raise
a division error in the summarizer. -/
theorem pct_division_safe :
    (∀ a b : Option ℚ, _pct a b = none ↔ a = none ∨ b = none ∨ b = some 0)
    ∧ (∀ x y : ℚ, y ≠ 0 → _pct (some x) (some y) = some ((x - y) / y * 100)) := by
  constructor
  · rintro (_ | x) (_ | y)
    · simp [_pct]
    · simp [_pct]
    · simp [_pct]
    · by_cases hy : y = 0 <;> simp [_pct, hy]
  · intro x y hy
    simp [_pct, hy]

/-- Witness for C10 at a zero baseline and at a regular input. -/
theorem pct_division_safe_witness :
    _pct (some 5) (some 0) = none ∧ _pct (some 6) (some 4) = some 50 := by
  constructor
  · exact (pct_division_safe.1 (some 5) (some 0)).2 (Or.inr (Or.inr rfl))
  · have h := pct_division_safe.2 6 4 (by norm_num)
    rw [h]; norm_num

/-- C6 (code bug): a daily-quota soft error embedded in a 200 response is
NOT permanently fatal in the code: the `raise` sits inside the `try`
block, the blanket `except` catches it, and the adapter retries.  With
the default cap of 2 retries the quota payload is fetched three times and
the adapter then fails with the wrapping message — contradicting the
source's own comment ("Don't retry for daily-limit messages") and the
claim. -/
theorem daily_quota_soft_error_retried :
    alphaVantageGet (fun _ => .httpOk demoDailyQuota) 2 =
      (.error ("Alpha Vantage request failed: " ++
        "Our standard API rate limit is 25 requests per day."), 3) := by decide

/-- C3: an out-of-domain classification is terminal: the reply is the
fixed refusal sentence, the effect log is empty, and no specialist step
(news research, financial analysis, report synthesis, quick-answer
search) runs. -/
theorem out_of_domain_rejection_terminal (env : WorkflowEnv) (c : Classification)
    (h : classify_domain env.llm env.jsonParse = .ok c)
    (hd : c.domain = "out_of_domain") :
    run_manager_workflow env =
      ([], .ok ⟨{ competitor_name := "unknown"
                  parsed_prompt := { competitor_name := "unknown" } }, fixedRefusal⟩) := by
  unfold run_manager_workflow
  rw [h]
  simp [hd]

/-- A sequential `missing += 1` chain over four boolean tests equals the
sum of the four indicators. -/
theorem missing_chain (a b c d : Bool) :
    (let m1 : ℕ := if a then 0 + 1 else 0
     let m2 := if b then m1 + 1 else m1
     let m3 := if c then m2 + 1 else m2
     if d then m3 + 1 else m3) =
      (if a then 1 else 0) + (if b then 1 else 0) + (if c then 1 else 0) +
        (if d then 1 else 0) := by
  cases a <;> cases b <;> cases c <;> cases d <;> rfl

/-- The accumulated `missing` count of `_needs_second_search` equals the
sum of the four signal indicators. -/
theorem needs_eq_count (nr : NewsResearchResult) :
    _needs_second_search nr = decide (3 ≤ missingSignalCount nr.company_overview) := by
  have h := missing_chain (descriptionSignalMissing nr.company_overview)
    (foundedSignalMissing nr.company_overview) (hqSignalMissing nr.company_overview)
    (executivesSignalMissing nr.company_overview)
  calc _needs_second_search nr
      = decide (3 ≤
          (let m1 : ℕ := if descriptionSignalMissing nr.company_overview then 0 + 1 else 0
           let m2 := if foundedSignalMissing nr.company_overview then m1 + 1 else m1
           let m3 := if hqSignalMissing nr.company_overview then m2 + 1 else m2
           if executivesSignalMissing nr.company_overview then m3 + 1 else m3)) := rfl
    _ = decide (3 ≤ missingSignalCount nr.company_overview) := by rw [h]; rfl

/-- The effect log of `afterNews` appends only the financial-analysis
step, or the financial-analysis and report-synthesis steps. -/
theorem afterNews_fst (env : WorkflowEnv) (parsed : ManagerParsedPrompt)
    (log : List StepCall) (nr : NewsResearchResult) :
    (afterNews env parsed log nr).1 =
      log ++ [StepCall.financialAnalysis parsed.competitor_name parsed.ticker] ∨
    (afterNews env parsed log nr).1 =
      log ++ [StepCall.financialAnalysis parsed.competitor_name parsed.ticker,
              StepCall.reportSynthesis] := by
  unfold afterNews
  cases hf : recoverStep env.finTask finMsg finMsg with
  | error e => left; simp
  | ok fa =>
    cases hr : recoverStep env.reportTask reportMsg reportMsg with
    | error e => right; simp
    | ok rep => right; simp

/-- At most one second news pass appears in any full-report effect log. -/
theorem runFullReport_count_le_one (env : WorkflowEnv) (parsed : ManagerParsedPrompt) :
    countSecondPasses (runFullReport env parsed).1 ≤ 1 := by
  unfold runFullReport
  cases hn : recoverStep env.newsTask1 newsValMsg newsRawMsg with
  | error e => simp [countSecondPasses, isSecondPass]
  | ok nr =>
    by_cases hs : _needs_second_search nr = true
    · simp only [hs, if_true]
      cases h2 : env.newsTask2.pydantic with
      | none => simp [countSecondPasses, isSecondPass]
      | some nr2 =>
        rcases afterNews_fst env parsed
            [StepCall.newsResearch parsed.competitor_name parsed.keywords,
             StepCall.newsSecondPass parsed.competitor_name (secondPassKeywords parsed)]
            nr2 with h | h <;>
          simp [h, countSecondPasses, isSecondPass, List.countP_append, List.countP_cons]
    · rw [Bool.not_eq_true] at hs
      simp only [hs, Bool.false_eq_true, if_false]
      rcases afterNews_fst env parsed
          [StepCall.newsResearch parsed.competitor_name parsed.keywords] nr with h | h <;>
        simp [h, countSecondPasses, isSecondPass, List.countP_append, List.countP_cons]

/-- Every second news pass recorded in a full-report effect log was
invoked on the parsed competitor with the seeded keyword list. -/
theorem runFullReport_secondPass_mem (env : WorkflowEnv) (parsed : ManagerParsedPrompt)
    (c : String) (kws : List String)
    (hm : StepCall.newsSecondPass c kws ∈ (runFullReport env parsed).1) :
    c = parsed.competitor_name ∧ kws = secondPassKeywords parsed := by
  unfold runFullReport at hm
  cases hn : recoverStep env.newsTask1 newsValMsg newsRawMsg with
  | error e => rw [hn] at hm; simp at hm
  | ok nr =>
    rw [hn] at hm
    by_cases hs : _needs_second_search nr = true
    · simp only [hs, if_true] at hm
      cases h2 : env.newsTask2.pydantic with
      | none =>
        simp only [h2] at hm
        simp at hm
        exact hm
      | some nr2 =>
        simp only [h2, List.singleton_append] at hm
        rcases afterNews_fst env parsed
            [StepCall.newsResearch parsed.competitor_name parsed.keywords,
             StepCall.newsSecondPass parsed.competitor_name (secondPassKeywords parsed)]
            nr2 with h | h <;>
          · rw [h] at hm
            simp at hm
            exact hm
    · rw [Bool.not_eq_true] at hs
      simp only [hs, Bool.false_eq_true, if_false] at hm
      rcases afterNews_fst env parsed
          [StepCall.newsResearch parsed.competitor_name parsed.keywords] nr with h | h <;>
        · rw [h] at hm
          simp at hm

/-- Witness for C3: a stubbed gate answer that decodes to out-of-domain
routes "How do I become a CEO?" to the refusal with an empty log. -/
theorem out_of_domain_rejection_terminal_witness :
    classify_domain demoEnvOutOfDomain.llm demoEnvOutOfDomain.jsonParse =
        .ok ⟨"out_of_domain", "other", "invalid_json"⟩
    ∧ run_manager_workflow demoEnvOutOfDomain =
        ([], .ok ⟨{ competitor_name := "unknown"
                    parsed_prompt := { competitor_name := "unknown" } }, fixedRefusal⟩) :=
  ⟨by decide, out_of_domain_rejection_terminal demoEnvOutOfDomain
    ⟨"out_of_domain", "other", "invalid_json"⟩ (by decide) rfl⟩

/-- Lexicographic `<` on char lists is asymmetric. -/
theorem strLt_asymm : ∀ a b : Str, strLtList a b = true → strLtList b a = false := by
  intro a
  induction a with
  | nil => intro b h; cases b <;> simp [strLtList] at h ⊢
  | cons x xs ih =>
    intro b h
    cases b with
    | nil => simp [strLtList] at h
    | cons y ys =>
      rw [strLtList] at h ⊢
      by_cases h1 : x.toNat < y.toNat
      · have h2 : ¬ y.toNat < x.toNat := by omega
        simp [h1, h2]
      · by_cases h2 : y.toNat < x.toNat
        · simp [h1, h2] at h
        · simp [h1, h2] at h ⊢
          exact ih ys h

/-- If `a < c` then for every `b`, `a < b` or `b < c` (lexicographic
comparability). -/
theorem strLt_comparison : ∀ a b c : Str, strLtList a c = true →
    strLtList a b = true ∨ strLtList b c = true := by
  intro a
  induction a with
  | nil =>
    intro b c h
    cases c with
    | nil => simp [strLtList] at h
    | cons z cs =>
      cases b with
      | nil => right; exact h
      | cons y bs => left; simp [strLtList]
  | cons x xs ih =>
    intro b c h
    cases c with
    | nil => simp [strLtList] at h
    | cons z cs =>
      cases b with
      | nil => right; simp [strLtList]
      | cons y bs =>
        rw [strLtList] at h
        by_cases hxz : x.toNat < z.toNat
        · by_cases hxy : x.toNat < y.toNat
          · left; rw [strLtList]; simp [hxy]
          · right; rw [strLtList]
            have hyz : y.toNat < z.toNat := by omega
            simp [hyz]
        · by_cases hzx : z.toNat < x.toNat
          · simp [hxz, hzx] at h
          · simp [hxz, hzx] at h
            have hxez : x.toNat = z.toNat := by omega
            by_cases hxy : x.toNat < y.toNat
            · left; rw [strLtList]; simp [hxy]
            · by_cases hyx : y.toNat < x.toNat
              · right; rw [strLtList]
                have hyz : y.toNat < z.toNat := by omega
                simp [hyz]
              · rcases ih bs cs h with h1 | h1
                · left; rw [strLtList]; simp [hxy, hyx, h1]
                · right; rw [strLtList]
                  have h2 : ¬ y.toNat < z.toNat := by omega
                  have h3 : ¬ z.toNat < y.toNat := by omega
                  simp [h2, h3, h1]

instance : IsTrans String strGeRel :=
  ⟨by
    intro a b c hab hbc
    unfold strGeRel pyStrLt at *
    by_contra hac
    rw [Bool.not_eq_false] at hac
    rcases strLt_comparison a.toList b.toList c.toList hac with h | h
    · rw [h] at hab; cases hab
    · rw [h] at hbc; cases hbc⟩

instance : IsTotal String strGeRel :=
  ⟨by
    intro a b
    unfold strGeRel pyStrLt
    cases hlt : strLtList a.toList b.toList with
    | false => exact Or.inl rfl
    | true => exact Or.inr (strLt_asymm _ _ hlt)⟩

/-- C9: the price-performance summary returns all `None` when the daily
series is missing or empty; otherwise it is the tuple of the most recent
date, the last close, and the percentage changes at the 5-, 22- and
126-session lookbacks of the most-recent-first date list; the date list
is a descending-sorted permutation of the series' keys; any lookback
deeper than the available history yields `None`; and each percentage is
`(last − close_at_lookback) / close_at_lookback × 100`. -/
theorem summarize_price_performance_spec :
    (∀ ts : TimeSeriesDailyAdjusted, ts.timeSeries = none →
        summarize_price_performance ts = (none, none, none, none, none))
    ∧ (∀ ts : TimeSeriesDailyAdjusted, ts.timeSeries = some [] →
        summarize_price_performance ts = (none, none, none, none, none))
    ∧ (∀ (ts : TimeSeriesDailyAdjusted) (series : List (String × DailyRow)),
        ts.timeSeries = some series → series ≠ [] →
        summarize_price_performance ts =
          ((sortedDatesDesc series).get? 0,
            closeAtIdx series (sortedDatesDesc series) 0,
            _pct (closeAtIdx series (sortedDatesDesc series) 0)
              (closeAtIdx series (sortedDatesDesc series) 5),
            _pct (closeAtIdx series (sortedDatesDesc series) 0)
              (closeAtIdx series (sortedDatesDesc series) 22),
            _pct (closeAtIdx series (sortedDatesDesc series) 0)
              (closeAtIdx series (sortedDatesDesc series) 126)))
    ∧ (∀ series : List (String × DailyRow),
        List.Sorted strGeRel (sortedDatesDesc series) ∧
        List.Perm (sortedDatesDesc series) (series.map Prod.fst))
    ∧ (∀ (series : List (String × DailyRow)) (dates : List String) (k : ℕ),
        dates.length ≤ k → closeAtIdx series dates k = none)
    ∧ (∀ x y : ℚ, y ≠ 0 → _pct (some x) (some y) = some ((x - y) / y * 100)) := by
  refine ⟨fun ts h => ?_, fun ts h => ?_, fun ts series h hne => ?_,
    fun series => ⟨?_, ?_⟩, fun series dates k h => ?_, fun x y hy => ?_⟩
  · simp [summarize_price_performance, h]
  · simp [summarize_price_performance, h]
  · simp [summarize_price_performance, h, hne]
  · exact List.sorted_insertionSort strGeRel (series.map Prod.fst)
  · exact List.perm_insertionSort strGeRel (series.map Prod.fst)
  · simp [closeAtIdx, h]
  · simp [_pct, hy]

/-- Witness for C9: on six trading days the 5-session lookback is 50%
and the deeper lookbacks are `None`. -/
theorem summarize_price_performance_spec_witness :
    summarize_price_performance ⟨some demoSeries⟩ =
      (some "2024-01-06", some 150, some 50, none, none) := by
  have h := summarize_price_performance_spec.2.2.1 ⟨some demoSeries⟩ demoSeries rfl
    (by decide)
  rw [h]
  have hd : sortedDatesDesc demoSeries =
      ["2024-01-06", "2024-01-05", "2024-01-04", "2024-01-03", "2024-01-02",
       "2024-01-01"] := by decide
  rw [hd]
  have h0 : closeAtIdx demoSeries
      ["2024-01-06", "2024-01-05", "2024-01-04", "2024-01-03", "2024-01-02",
       "2024-01-01"] 0 = some ((150 : ℕ) : ℚ) := rfl
  have h5 : closeAtIdx demoSeries
      ["2024-01-06", "2024-01-05", "2024-01-04", "2024-01-03", "2024-01-02",
       "2024-01-01"] 5 = some ((100 : ℕ) : ℚ) := rfl
  have h22 : closeAtIdx demoSeries
      ["2024-01-06", "2024-01-05", "2024-01-04", "2024-01-03", "2024-01-02",
       "2024-01-01"] 22 = none := rfl
  have h126 : closeAtIdx demoSeries
      ["2024-01-06", "2024-01-05", "2024-01-04", "2024-01-03", "2024-01-02",
       "2024-01-01"] 126 = none := rfl
  rw [h0, h5, h22, h126]
  norm_num [_pct]

/-- A terminal mark is not whitespace. -/
theorem mark_not_ws {c : Char} (h : isTermMark c = true) : isPyWs c = false := by
  simp only [isTermMark, Bool.or_eq_true, beq_iff_eq] at h
  rcases h with (h | h) | h <;> subst h <;> decide

/-- A terminal mark is not a parenthesis. -/
theorem mark_not_paren {c : Char} (h : isTermMark c = true) :
    (c = '(' → False) ∧ (c = ')' → False) := by
  simp only [isTermMark, Bool.or_eq_true, beq_iff_eq] at h
  rcases h with (h | h) | h <;> subst h <;> exact ⟨by decide, by decide⟩

/-- Elements surviving `dropWhile` come from the original list. -/
theorem mem_dropWhile {p : Char → Bool} {c : Char} :
    ∀ {l : Str}, c ∈ l.dropWhile p → c ∈ l := by
  intro l
  induction l with
  | nil => intro h; simpa using h
  | cons a as ih =>
    intro h
    rw [List.dropWhile_cons] at h
    by_cases ha : p a
    · simp only [ha, if_true] at h
      exact List.mem_cons_of_mem a (ih h)
    · simp only [ha, if_false] at h
      exact h

/-- Elements of a stripped string come from the original string. -/
theorem mem_pyStrip {c : Char} {l : Str} (h : c ∈ pyStrip l) : c ∈ l := by
  unfold pyStrip dropWhileWs rdropWhileWs at h
  have h1 := mem_dropWhile h
  rw [List.mem_reverse] at h1
  have h2 := mem_dropWhile h1
  rwa [List.mem_reverse] at h2

/-- Elements of a run-collapsed string are spaces or original elements. -/
theorem mem_collapseRunsAux {p : Char → Bool} {c : Char} :
    ∀ (l : Str) (b : Bool), c ∈ collapseRunsAux p b l → c = ' ' ∨ c ∈ l := by
  intro l
  induction l with
  | nil => intro b h; simp [collapseRunsAux] at h
  | cons a as ih =>
    intro b h
    rw [collapseRunsAux] at h
    cases hpa : p a
    · rw [hpa, if_neg (by simp)] at h
      rcases List.mem_cons.mp h with rfl | h
      · exact Or.inr (by simp)
      · rcases ih false h with h1 | h1
        · exact Or.inl h1
        · exact Or.inr (List.mem_cons_of_mem a h1)
    · rw [hpa, if_pos rfl] at h
      cases b
      · rw [if_neg (by simp)] at h
        rcases List.mem_cons.mp h with rfl | h
        · exact Or.inl rfl
        · rcases ih true h with h1 | h1
          · exact Or.inl h1
          · exact Or.inr (List.mem_cons_of_mem a h1)
      · rw [if_pos rfl] at h
        rcases ih true h with h1 | h1
        · exact Or.inl h1
        · exact Or.inr (List.mem_cons_of_mem a h1)

/-- Elements of a bullet-stripped string come from the original. -/
theorem mem_stripBullet {c : Char} {l : Str} (h : c ∈ stripBullet l) : c ∈ l := by
  unfold stripBullet at h
  cases l with
  | nil => simpa using h
  | cons a rest =>
    by_cases ha : (a == '-' || a == '*' || a == '•') = true
    · simp only [ha, if_true] at h
      cases rest with
      | nil => exact h
      | cons d ds =>
        by_cases hd : isPyWs d
        · simp only [hd, if_true] at h
          exact List.mem_cons_of_mem a (mem_dropWhile h)
        · simp only [hd, if_false] at h
          exact h
    · simp only [ha, if_false] at h
      exact h

/-- Elements surviving `rstripDots` come from the original list. -/
theorem mem_rstripDots {c : Char} {l : Str} (h : c ∈ rstripDots l) : c ∈ l := by
  unfold rstripDots at h
  rw [List.mem_reverse] at h
  have h1 := mem_dropWhile h
  rwa [List.mem_reverse] at h1

/-- Decomposition produced by `splitAtFirstMark` on a hit: the original
list splits there, the mark is terminal, and the part before it is
mark-free. -/
theorem splitAtFirstMark_some :
    ∀ {l p : Str} {m : Char} {s : Str}, splitAtFirstMark l = some (p, m, s) →
      l = p ++ m :: s ∧ isTermMark m = true ∧ ∀ c ∈ p, isTermMark c = false := by
  intro l
  induction l with
  | nil => intro p m s h; simp [splitAtFirstMark] at h
  | cons a as ih =>
    intro p m s h
    rw [splitAtFirstMark] at h
    by_cases ha : isTermMark a = true
    · rw [if_pos ha] at h
      simp only [Option.some_inj, Prod.mk.injEq] at h
      obtain ⟨h1, h2, h3⟩ := h
      subst h1
      subst h2
      subst h3
      exact ⟨rfl, ha, by simp⟩
    · rw [if_neg ha] at h
      cases hs : splitAtFirstMark as with
      | none => rw [hs] at h; simp at h
      | some t =>
        obtain ⟨p', m', s'⟩ := t
        rw [hs] at h
        simp only [Option.some_inj, Prod.mk.injEq] at h
        obtain ⟨h1, h2, h3⟩ := h
        subst h2
        subst h3
        subst h1
        obtain ⟨he, hm, hp⟩ := ih hs
        refine ⟨by rw [he]; rfl, hm, ?_⟩
        intro c hc
        rcases List.mem_cons.mp hc with rfl | hc
        · simpa using ha
        · exact hp c hc

/-- When `splitAtFirstMark` misses, the list is mark-free. -/
theorem splitAtFirstMark_none :
    ∀ {l : Str}, splitAtFirstMark l = none → ∀ c ∈ l, isTermMark c = false := by
  intro l
  induction l with
  | nil => intro _ c hc; simp at hc
  | cons a as ih =>
    intro h c hc
    rw [splitAtFirstMark] at h
    by_cases ha : isTermMark a
    · simp [ha] at h
    · simp only [ha, if_false] at h
      cases hs : splitAtFirstMark as with
      | none =>
        rcases List.mem_cons.mp hc with rfl | hc
        · simpa using ha
        · exact ih hs c hc
      | some t => rw [hs] at h; obtain ⟨p', m', s'⟩ := t; simp at h

/-- `dropWhile` distributes over appending a non-matching last element. -/
theorem dropWhile_append_single {p : Char → Bool} {m : Char} (hm : p m = false) :
    ∀ l : Str, (l ++ [m]).dropWhile p = l.dropWhile p ++ [m] := by
  intro l
  induction l with
  | nil => simp [List.dropWhile_cons, hm]
  | cons a as ih =>
    rw [List.cons_append, List.dropWhile_cons, List.dropWhile_cons]
    by_cases ha : p a = true
    · rw [if_pos ha, if_pos ha]
      exact ih
    · rw [if_neg ha, if_neg ha]
      rfl

/-- `rstrip` keeps a list that ends in a non-whitespace character. -/
theorem rdropWhileWs_append_mark {m : Char} (hm : isPyWs m = false) (l : Str) :
    rdropWhileWs (l ++ [m]) = l ++ [m] := by
  unfold rdropWhileWs
  rw [List.reverse_append]
  simp [List.dropWhile_cons, hm]

/-- `rstrip(".")` keeps a list that ends in a character other than a
dot. -/
theorem rstripDots_append_of_ne {m : Char} (hm : (m == '.') = false) (l : Str) :
    rstripDots (l ++ [m]) = l ++ [m] := by
  unfold rstripDots
  rw [List.reverse_append]
  simp [List.dropWhile_cons, hm]

/-- `rstrip(".")` removes a final dot appended to a mark-free list. -/
theorem rstripDots_append_dot {l : Str} (hl : ∀ c ∈ l, isTermMark c = false) :
    rstripDots (l ++ ['.']) = l := by
  unfold rstripDots
  rw [List.reverse_append]
  have hdot : List.dropWhile (· == '.') (['.'].reverse ++ l.reverse) =
      List.dropWhile (· == '.') l.reverse := by
    simp [List.dropWhile_cons]
  rw [hdot]
  have h2 : List.dropWhile (· == '.') l.reverse = l.reverse := by
    cases hr : l.reverse with
    | nil => rfl
    | cons a as =>
      have ha : a ∈ l := by
        rw [← List.mem_reverse, hr]
        simp
      have hna : ((a == '.') = true) → False := by
        intro hc
        have hm := hl a ha
        rw [beq_iff_eq] at hc
        subst hc
        simp [isTermMark] at hm
      rw [List.dropWhile_cons, if_neg hna]
  rw [h2, List.reverse_reverse]

/-- Shape of the truncated answer: a mark-free part followed by exactly
one terminal mark. -/
theorem truncateAnswer_shape (answer : String) :
    ∃ p m, truncateAnswer answer = p ++ [m] ∧ isTermMark m = true ∧
      ∀ c ∈ p, isTermMark c = false := by
  unfold truncateAnswer
  cases hsp : splitAtFirstMark
      (stripBullet (collapseNlRuns (collapseWsRuns (pyStrip answer.toList)))) with
  | some t =>
    obtain ⟨p, m, s⟩ := t
    obtain ⟨_, hm, hp⟩ := splitAtFirstMark_some hsp
    have hstrip : pyStrip (p ++ [m]) = List.dropWhile isPyWs p ++ [m] := by
      unfold pyStrip
      rw [rdropWhileWs_append_mark (mark_not_ws hm)]
      unfold dropWhileWs
      exact dropWhile_append_single (mark_not_ws hm) p
    exact ⟨List.dropWhile isPyWs p, m, hstrip, hm,
      fun c hc => hp c (mem_dropWhile hc)⟩
  | none =>
    have hfree := splitAtFirstMark_none hsp
    exact ⟨rstripDots (stripBullet (collapseNlRuns (collapseWsRuns (pyStrip answer.toList)))),
      '.', rfl, rfl, fun c hc => hfree c (mem_rstripDots hc)⟩

/-- The three concrete terminal marks. -/
theorem isTermMark_cases {m : Char} (h : isTermMark m = true) :
    m = '.' ∨ m = '!' ∨ m = '?' := by
  simp only [isTermMark, Bool.or_eq_true, beq_iff_eq] at h
  tauto

/-- Elements of the truncated answer are spaces, dots, or characters of
the original answer. -/
theorem mem_truncateAnswer {c : Char} {answer : String}
    (h : c ∈ truncateAnswer answer) : c = ' ' ∨ c = '.' ∨ c ∈ answer.toList := by
  have pipeline : ∀ {x : Char},
      x ∈ stripBullet (collapseNlRuns (collapseWsRuns (pyStrip answer.toList))) →
      x = ' ' ∨ x ∈ answer.toList := by
    intro x hx
    have h1 := mem_stripBullet hx
    rcases mem_collapseRunsAux _ _ h1 with h2 | h2
    · exact Or.inl h2
    · rcases mem_collapseRunsAux _ _ h2 with h3 | h3
      · exact Or.inl h3
      · exact Or.inr (mem_pyStrip h3)
  unfold truncateAnswer at h
  cases hsp : splitAtFirstMark
      (stripBullet (collapseNlRuns (collapseWsRuns (pyStrip answer.toList)))) with
  | some t =>
    obtain ⟨p, m, s⟩ := t
    simp only [hsp] at h
    have h1 := mem_pyStrip h
    obtain ⟨he, _, _⟩ := splitAtFirstMark_some hsp
    have h2 : c ∈ p ++ m :: s := by
      rcases List.mem_append.mp h1 with h3 | h3
      · exact List.mem_append.mpr (Or.inl h3)
      · simp only [List.mem_singleton] at h3
        subst h3
        exact List.mem_append.mpr (Or.inr (by simp))
    rw [← he] at h2
    rcases pipeline h2 with h3 | h3
    · exact Or.inl h3
    · exact Or.inr (Or.inr h3)
  | none =>
    simp only [hsp] at h
    rcases List.mem_append.mp h with h1 | h1
    · rcases pipeline (mem_rstripDots h1) with h2 | h2
      · exact Or.inl h2
      · exact Or.inr (Or.inr h2)
    · simp only [List.mem_singleton] at h1
      exact Or.inr (Or.inl h1)

/-- Reading `parenFreeB` element-wise. -/
theorem parenFreeB_iff {l : Str} :
    parenFreeB l = true ↔ ∀ c ∈ l, (c == '(') = false ∧ (c == ')') = false := by
  unfold parenFreeB
  rw [List.all_eq_true]
  constructor
  · intro h c hc
    have h1 := h c hc
    simp only [Bool.and_eq_true, Bool.not_eq_true'] at h1
    exact h1
  · intro h c hc
    have h1 := h c hc
    simp [h1.1, h1.2]

/-- A list ending in one mark after a mark-free part ends with exactly
one terminal mark. -/
theorem endsOne_append_mark {p : Str} {m : Char} (hm : isTermMark m = true)
    (hp : ∀ c ∈ p, isTermMark c = false) :
    endsWithExactlyOneMark (p ++ [m]) = true := by
  unfold endsWithExactlyOneMark
  rw [List.reverse_append]
  simp only [List.reverse_cons, List.reverse_nil, List.nil_append, List.singleton_append]
  cases hr : p.reverse with
  | nil => simpa using hm
  | cons d ds =>
    have hd : d ∈ p := by
      rw [← List.mem_reverse, hr]
      simp
    simp [hm, hp d hd]

/-- A list ending in `")."` ends with exactly one terminal mark. -/
theorem endsOne_close_dot (x : Str) :
    endsWithExactlyOneMark (x ++ [')', '.']) = true := by
  unfold endsWithExactlyOneMark
  rw [List.reverse_append]
  simp [isTermMark]

/-- A mark-free list contributes no counted marks at any depth. -/
theorem countMarksAux_no_marks :
    ∀ l : Str, (∀ c ∈ l, isTermMark c = false) → ∀ d, countMarksAux l d = 0 := by
  intro l
  induction l with
  | nil => intro _ d; rfl
  | cons a as ih =>
    intro hl d
    rw [countMarksAux]
    have htail := fun c hc => hl c (List.mem_cons_of_mem a hc)
    by_cases h1 : (a == '(') = true
    · rw [if_pos h1]
      exact ih htail (d + 1)
    · rw [if_neg h1]
      by_cases h2 : (a == ')') = true
      · rw [if_pos h2]
        exact ih htail (d - 1)
      · rw [if_neg h2]
        have ha : isTermMark a = false := hl a (by simp)
        rw [if_neg (by simp [ha])]
        exact ih htail d

/-- Counting splits over an append whose head part is parenthesis-free,
at depth zero. -/
theorem countMarksAux_append_d0 :
    ∀ a : Str, (∀ c ∈ a, (c == '(') = false ∧ (c == ')') = false) → ∀ b : Str,
      countMarksAux (a ++ b) 0 = countMarksAux a 0 + countMarksAux b 0 := by
  intro a
  induction a with
  | nil => intro _ b; simp [countMarksAux]
  | cons x xs ih =>
    intro h b
    have hx := h x (by simp)
    have hxs := fun c hc => h c (List.mem_cons_of_mem x hc)
    rw [List.cons_append, countMarksAux, countMarksAux]
    by_cases hm : isTermMark x = true
    · simp only [hx.1, hx.2, hm, Bool.false_eq_true, if_false, Bool.true_and,
        beq_self_eq_true, if_true]
      rw [ih hxs b]
      omega
    · rw [Bool.not_eq_true] at hm
      simp only [hx.1, hx.2, hm, Bool.false_eq_true, if_false, Bool.false_and]
      exact ih hxs b

/-- A parenthesis-free part contributes nothing at positive depth. -/
theorem countMarksAux_append_pos :
    ∀ a : Str, (∀ c ∈ a, (c == '(') = false ∧ (c == ')') = false) → ∀ (b : Str) (d : ℕ),
      countMarksAux (a ++ b) (d + 1) = countMarksAux b (d + 1) := by
  intro a
  induction a with
  | nil => intro _ b d; rfl
  | cons x xs ih =>
    intro h b d
    have hx := h x (by simp)
    have hxs := fun c hc => h c (List.mem_cons_of_mem x hc)
    rw [List.cons_append, countMarksAux]
    simp only [hx.1, hx.2, Bool.false_eq_true, if_false]
    rw [if_neg (by simp)]
    exact ih hxs b d

/-- The processed quick answer always ends with exactly one terminal
punctuation mark. -/
theorem processQuickAnswer_ends_one (answer url : String) :
    endsWithExactlyOneMark (processQuickAnswer answer url) = true := by
  obtain ⟨p, m, ht, hm, hp⟩ := truncateAnswer_shape answer
  unfold processQuickAnswer
  rw [ht]
  by_cases hc : appendCitationCond (p ++ [m]) url = true
  · rw [if_pos hc]
    have hassoc : rstripDots (p ++ [m]) ++ (' ' :: '(' :: url.toList ++ [')', '.']) =
        (rstripDots (p ++ [m]) ++ (' ' :: '(' :: url.toList)) ++ [')', '.'] := by
      simp
    rw [hassoc]
    exact endsOne_close_dot _
  · rw [if_neg hc]
    exact endsOne_append_mark hm hp

/-- Counting the processed quick answer's terminal marks outside
parenthesised regions, for parenthesis-free answers and URLs. -/
theorem processQuickAnswer_count (answer url : String)
    (ha : parenFreeB answer.toList = true) (hu : parenFreeB url.toList = true) :
    countMarksOutsideParens (processQuickAnswer answer url) =
      if appendCitationCond (truncateAnswer answer) url &&
          endsBangOrQn (truncateAnswer answer) then 2 else 1 := by
  obtain ⟨p, m, ht, hm, hp⟩ := truncateAnswer_shape answer
  have hmem : ∀ c ∈ p ++ [m], c = ' ' ∨ c = '.' ∨ c ∈ answer.toList := by
    intro c hc
    rw [← ht] at hc
    exact mem_truncateAnswer hc
  have hpfm : ∀ c ∈ p ++ [m], (c == '(') = false ∧ (c == ')') = false := by
    intro c hc
    rcases hmem c hc with rfl | rfl | hc2
    · exact ⟨by decide, by decide⟩
    · exact ⟨by decide, by decide⟩
    · exact (parenFreeB_iff.mp ha) c hc2
  have hpfp : ∀ c ∈ p, (c == '(') = false ∧ (c == ')') = false :=
    fun c hc => hpfm c (List.mem_append.mpr (Or.inl hc))
  have hpfu : ∀ c ∈ url.toList, (c == '(') = false ∧ (c == ')') = false :=
    parenFreeB_iff.mp hu
  have hebq : endsBangOrQn (p ++ [m]) = (m == '!' || m == '?') := by
    unfold endsBangOrQn
    rw [List.reverse_append]
    simp
  have hrest : countMarksAux ((' ' :: '(' :: url.toList) ++ [')', '.']) 0 = 1 := by
    rw [List.cons_append, List.cons_append]
    rw [countMarksAux]
    rw [if_neg (by decide), if_neg (by decide), if_neg (by decide)]
    rw [countMarksAux]
    rw [if_pos (by decide)]
    rw [countMarksAux_append_pos url.toList hpfu [')', '.'] 0]
    rfl
  unfold processQuickAnswer countMarksOutsideParens
  rw [ht, hebq]
  by_cases hc : appendCitationCond (p ++ [m]) url = true
  · rw [if_pos hc]
    rcases isTermMark_cases hm with rfl | rfl | rfl
    · rw [rstripDots_append_dot hp]
      rw [countMarksAux_append_d0 p hpfp]
      rw [countMarksAux_no_marks p hp 0, hrest]
      simp [hc]
    · rw [rstripDots_append_of_ne (by decide) p]
      rw [countMarksAux_append_d0 (p ++ ['!']) hpfm]
      rw [countMarksAux_append_d0 p hpfp]
      rw [countMarksAux_no_marks p hp 0, hrest]
      simp [hc]
      rfl
    · rw [rstripDots_append_of_ne (by decide) p]
      rw [countMarksAux_append_d0 (p ++ ['?']) hpfm]
      rw [countMarksAux_append_d0 p hpfp]
      rw [countMarksAux_no_marks p hp 0, hrest]
      simp [hc]
      rfl
  · rw [if_neg hc]
    rw [countMarksAux_append_d0 p hpfp]
    rw [countMarksAux_no_marks p hp 0]
    have hone : countMarksAux [m] 0 = 1 := by
      rw [countMarksAux]
      rw [if_neg (by simp [(hpfm m (by simp)).1]), if_neg (by simp [(hpfm m (by simp)).2]),
        if_pos (by simp [hm])]
      rfl
    rw [hone]
    simp only [Bool.not_eq_true] at hc
    simp [hc]

/-- C7 (amended): the post-processed quick-answer reply always ends with
exactly one terminal punctuation mark; for parenthesis-free answers and
URLs it contains exactly one such mark outside any parenthesised region,
unless the citation is appended to a truncated answer ending in '!' or
'?', in which case it contains exactly two; and a typed quick-answer
result reaches the caller as exactly this post-processed string. -/
theorem quick_answer_single_sentence_amended :
    (∀ answer url : String,
        endsWithExactlyOneMark (processQuickAnswer answer url) = true)
    ∧ (∀ answer url : String, parenFreeB answer.toList = true →
        parenFreeB url.toList = true →
        countMarksOutsideParens (processQuickAnswer answer url) =
          if appendCitationCond (truncateAnswer answer) url &&
              endsBangOrQn (truncateAnswer answer) then 2 else 1)
    ∧ (∀ (env : WorkflowEnv) (qa : QuickAnswerResult),
        env.quickTask.pydantic = some qa →
        (runQuickAnswer env).2 =
          .ok ⟨{ competitor_name := if env.quickEntity.isEmpty then "unknown"
                                    else env.quickEntity
                 parsed_prompt := { competitor_name := "unknown" } },
               String.mk (processQuickAnswer qa.answer qa.source_url)⟩) := by
  refine ⟨processQuickAnswer_ends_one, processQuickAnswer_count, ?_⟩
  intro env qa h
  unfold runQuickAnswer
  rw [h]

/-- Witness for C7 at a parenthesis-free answer truncated at a dot:
exactly one mark outside the parenthetical URL. -/
theorem quick_answer_single_sentence_amended_witness :
    endsWithExactlyOneMark
        (processQuickAnswer "The CEO is Jane Doe. More text" "https://x.example") = true
    ∧ countMarksOutsideParens
        (processQuickAnswer "The CEO is Jane Doe. More text" "https://x.example") = 1 := by
  constructor
  · exact quick_answer_single_sentence_amended.1 "The CEO is Jane Doe. More text"
      "https://x.example"
  · have h := quick_answer_single_sentence_amended.2.1 "The CEO is Jane Doe. More text"
      "https://x.example" (by decide) (by decide)
    rw [h]
    decide

/-- C7 counterexample: appending the citation to an answer truncated at
'!' yields a reply holding two terminal marks outside the parenthetical
URL, refuting the claimed "exactly one". -/
theorem quick_answer_two_marks_cx :
    processQuickAnswer "Yes! The market agrees." "https://x.example" =
      "Yes! (https://x.example).".toList
    ∧ countMarksOutsideParens
        (processQuickAnswer "Yes! The market agrees." "https://x.example") = 2 := by
  constructor <;> decide

/-- C8 (amended): each successful full-report run writes the specialist
results into disjoint state fields, and the final `sources` list is the
sources of the surviving news result followed by the financial sources.
When the second pass triggers, the surviving news result is the second
pass's: the first pass's sources are discarded, not appended. -/
theorem state_accumulation_amended :
    (∀ (env : WorkflowEnv) (parsed : ManagerParsedPrompt)
        (nr : NewsResearchResult) (fa : FinancialAnalysisResult) (rep : ReportMemo),
        env.newsTask1.pydantic = some nr → _needs_second_search nr = false →
        env.finTask.pydantic = some fa → env.reportTask.pydantic = some rep →
        runFullReport env parsed =
          ([ StepCall.newsResearch parsed.competitor_name parsed.keywords
           , StepCall.financialAnalysis parsed.competitor_name parsed.ticker
           , StepCall.reportSynthesis ],
           .ok ⟨{ competitor_name := parsed.competitor_name
                  parsed_prompt := parsed
                  company_overview := some nr.company_overview
                  recent_developments := some nr.recent_developments
                  products_pricing := some nr.products_pricing
                  financial_overview := some fa.financial_overview
                  sources := nr.sources ++ fa.sources }, rep.render_markdown⟩))
    ∧ (∀ (env : WorkflowEnv) (parsed : ManagerParsedPrompt)
        (nr nr2 : NewsResearchResult) (fa : FinancialAnalysisResult) (rep : ReportMemo),
        env.newsTask1.pydantic = some nr → _needs_second_search nr = true →
        env.newsTask2.pydantic = some nr2 →
        env.finTask.pydantic = some fa → env.reportTask.pydantic = some rep →
        runFullReport env parsed =
          ([ StepCall.newsResearch parsed.competitor_name parsed.keywords
           , StepCall.newsSecondPass parsed.competitor_name (secondPassKeywords parsed)
           , StepCall.financialAnalysis parsed.competitor_name parsed.ticker
           , StepCall.reportSynthesis ],
           .ok ⟨{ competitor_name := parsed.competitor_name
                  parsed_prompt := parsed
                  company_overview := some nr2.company_overview
                  recent_developments := some nr2.recent_developments
                  products_pricing := some nr2.products_pricing
                  financial_overview := some fa.financial_overview
                  sources := nr2.sources ++ fa.sources }, rep.render_markdown⟩)) := by
  constructor
  · intro env parsed nr fa rep h1 hs hf hr
    unfold runFullReport afterNews recoverStep
    rw [h1, hf, hr]
    simp [hs]
  · intro env parsed nr nr2 fa rep h1 hs h2 hf hr
    unfold runFullReport afterNews recoverStep
    rw [h1, h2, hf, hr]
    simp [hs]

/-- Witness for C8: the demonstration run with a triggered second pass,
where the state carries the second pass's and the financial step's
sources. -/
theorem state_accumulation_amended_witness :
    runFullReport demoEnvSecondPass demoParsedPrompt =
      ([ StepCall.newsResearch demoParsedPrompt.competitor_name demoParsedPrompt.keywords
       , StepCall.newsSecondPass demoParsedPrompt.competitor_name
           (secondPassKeywords demoParsedPrompt)
       , StepCall.financialAnalysis demoParsedPrompt.competitor_name demoParsedPrompt.ticker
       , StepCall.reportSynthesis ],
       .ok ⟨{ competitor_name := demoParsedPrompt.competitor_name
              parsed_prompt := demoParsedPrompt
              company_overview := some demoNews2.company_overview
              recent_developments := some demoNews2.recent_developments
              products_pricing := some demoNews2.products_pricing
              financial_overview := some demoFin.financial_overview
              sources := demoNews2.sources ++ demoFin.sources },
         demoReport.render_markdown⟩) :=
  state_accumulation_amended.2 demoEnvSecondPass demoParsedPrompt demoNews1 demoNews2
    demoFin demoReport rfl (by decide) rfl rfl rfl

/-- C8 counterexample: the claim promises the final state's sources to
contain every research-bearing step's contribution including both news
passes, but in the demonstration run the first pass's source is absent
from the final state. -/
theorem first_pass_sources_dropped_cx :
    demoEnvSecondPass.newsTask1.pydantic = some demoNews1
    ∧ demoSourceFirst ∈ demoNews1.sources
    ∧ (run_manager_workflow demoEnvSecondPass).1 =
        [ StepCall.newsResearch "Nvidia" ["GPUs"]
        , StepCall.newsSecondPass "Nvidia"
            ["GPUs", "CEO", "headcount", "headquarters", "founded"]
        , StepCall.financialAnalysis "Nvidia" (some "NVDA")
        , StepCall.reportSynthesis ]
    ∧ resultSources (run_manager_workflow demoEnvSecondPass).2 =
        [demoSourceSecond, demoSourceFin]
    ∧ demoSourceFirst ∉ resultSources (run_manager_workflow demoEnvSecondPass).2 :=
  ⟨rfl, by decide, by decide, by decide, by decide⟩

/-- C1 (amended): the one-recovery-then-fatal discipline holds for the
first news pass, the financial-analysis step and the report-synthesis
step — a validated raw text makes the run proceed exactly as a typed
success, and a doubly-unusable output yields the step-named fatal error
with no later specialist step in the log and no memo.  The second news
pass is the exception: its typed result is dereferenced without any
recovery, so when it is absent the run fails with an `AttributeError`
(before financial analysis) even if its raw text validates. -/
theorem validation_recovery_amended :
    (∀ (env : WorkflowEnv) (parsed : ManagerParsedPrompt) (r : String)
        (v : NewsResearchResult),
        env.newsTask1 = ⟨none, some r, some v⟩ →
        runFullReport env parsed =
          runFullReport { env with newsTask1 := ⟨some v, some r, some v⟩ } parsed)
    ∧ (∀ (env : WorkflowEnv) (parsed : ManagerParsedPrompt),
        env.newsTask1.pydantic = none → env.newsTask1.raw = none →
        runFullReport env parsed =
          ([StepCall.newsResearch parsed.competitor_name parsed.keywords],
            .error (.runtimeError newsRawMsg)))
    ∧ (∀ (env : WorkflowEnv) (parsed : ManagerParsedPrompt) (r : String),
        env.newsTask1.pydantic = none → env.newsTask1.raw = some r →
        env.newsTask1.rawValidated = none →
        runFullReport env parsed =
          ([StepCall.newsResearch parsed.competitor_name parsed.keywords],
            .error (.runtimeError newsValMsg)))
    ∧ (∀ (env : WorkflowEnv) (parsed : ManagerParsedPrompt) (log : List StepCall)
        (nr : NewsResearchResult) (r : String) (v : FinancialAnalysisResult),
        env.finTask = ⟨none, some r, some v⟩ →
        afterNews env parsed log nr =
          afterNews { env with finTask := ⟨some v, some r, some v⟩ } parsed log nr)
    ∧ (∀ (env : WorkflowEnv) (parsed : ManagerParsedPrompt) (log : List StepCall)
        (nr : NewsResearchResult),
        env.finTask.pydantic = none →
        (env.finTask.raw = none ∨ env.finTask.rawValidated = none) →
        afterNews env parsed log nr =
          (log ++ [StepCall.financialAnalysis parsed.competitor_name parsed.ticker],
            .error (.runtimeError finMsg)))
    ∧ (∀ (env : WorkflowEnv) (parsed : ManagerParsedPrompt) (log : List StepCall)
        (nr : NewsResearchResult) (r : String) (v : ReportMemo),
        env.reportTask = ⟨none, some r, some v⟩ →
        afterNews env parsed log nr =
          afterNews { env with reportTask := ⟨some v, some r, some v⟩ } parsed log nr)
    ∧ (∀ (env : WorkflowEnv) (parsed : ManagerParsedPrompt) (log : List StepCall)
        (nr : NewsResearchResult) (fa : FinancialAnalysisResult),
        env.finTask.pydantic = some fa →
        env.reportTask.pydantic = none →
        (env.reportTask.raw = none ∨ env.reportTask.rawValidated = none) →
        afterNews env parsed log nr =
          (log ++ [StepCall.financialAnalysis parsed.competitor_name parsed.ticker,
                   StepCall.reportSynthesis],
            .error (.runtimeError reportMsg)))
    ∧ (∀ (env : WorkflowEnv) (parsed : ManagerParsedPrompt) (nr : NewsResearchResult),
        env.newsTask1.pydantic = some nr → _needs_second_search nr = true →
        env.newsTask2.pydantic = none →
        runFullReport env parsed =
          ([ StepCall.newsResearch parsed.competitor_name parsed.keywords
           , StepCall.newsSecondPass parsed.competitor_name (secondPassKeywords parsed) ],
            .error .attributeError)) := by
  refine ⟨fun env parsed r v h => ?_, fun env parsed h1 h2 => ?_,
    fun env parsed r h1 h2 h3 => ?_, fun env parsed log nr r v h => ?_,
    fun env parsed log nr h1 h2 => ?_, fun env parsed log nr r v h => ?_,
    fun env parsed log nr fa hf h1 h2 => ?_, fun env parsed nr h1 hs h2 => ?_⟩
  · unfold runFullReport recoverStep
    rw [h]
    exact rfl
  · unfold runFullReport recoverStep
    rw [h1, h2]
  · unfold runFullReport recoverStep
    rw [h1, h2, h3]
  · unfold afterNews recoverStep
    rw [h]
  · unfold afterNews recoverStep
    rw [h1]
    rcases h2 with h2 | h2
    · rw [h2]
    · cases hr : env.finTask.raw with
      | none => rfl
      | some s => rw [h2]
  · unfold afterNews recoverStep
    rw [h]
  · unfold afterNews recoverStep
    rw [hf, h1]
    rcases h2 with h2 | h2
    · rw [h2]
      simp
    · cases hr : env.reportTask.raw with
      | none => simp
      | some s =>
        rw [h2]
        simp
  · unfold runFullReport recoverStep
    rw [h1, h2]
    simp [hs]

/-- Witness for C1: a first news pass whose raw text validates proceeds
exactly like a typed success. -/
theorem validation_recovery_amended_witness :
    runFullReport demoEnvNewsRecovered demoParsedPrompt =
      runFullReport { demoEnvNewsRecovered with
        newsTask1 := ⟨some demoNews1, some "raw", some demoNews1⟩ } demoParsedPrompt :=
  validation_recovery_amended.1 demoEnvNewsRecovered demoParsedPrompt "raw" demoNews1 rfl

/-- C1 counterexample: in the demonstration run the second news pass has
no typed result while its raw text validates against the schema, yet the
workflow does not recover — it fails with an `AttributeError` (not a
step-named fatal error). -/
theorem second_pass_no_recovery_cx :
    demoEnvSecondPassRaw.newsTask2.pydantic = none
    ∧ demoEnvSecondPassRaw.newsTask2.rawValidated = some demoNews2
    ∧ run_manager_workflow demoEnvSecondPassRaw =
        ([ StepCall.newsResearch "Nvidia" ["GPUs"]
         , StepCall.newsSecondPass "Nvidia"
             ["GPUs", "CEO", "headcount", "headquarters", "founded"] ],
          .error .attributeError) :=
  ⟨rfl, rfl, by decide⟩

/-- C5: `_needs_second_search` holds iff at least 3 of the 4 tracked
completeness signals are missing/unknown (and is false at exactly 2);
the workflow triggers at most one second pass, and every second pass is
seeded with the extra keywords CEO, headcount, headquarters, founded
appended to the original keyword set. -/
theorem needs_second_search_majority :
    (∀ nr : NewsResearchResult,
        _needs_second_search nr = true ↔ 3 ≤ missingSignalCount nr.company_overview)
    ∧ (∀ nr : NewsResearchResult,
        missingSignalCount nr.company_overview = 2 → _needs_second_search nr = false)
    ∧ (∀ (env : WorkflowEnv) (parsed : ManagerParsedPrompt),
        countSecondPasses (runFullReport env parsed).1 ≤ 1)
    ∧ (∀ (env : WorkflowEnv) (parsed : ManagerParsedPrompt) (c : String) (kws : List String),
        StepCall.newsSecondPass c kws ∈ (runFullReport env parsed).1 →
        c = parsed.competitor_name ∧
        kws = parsed.keywords ++ ["CEO", "headcount", "headquarters", "founded"]) := by
  refine ⟨fun nr => ?_, fun nr h => ?_, runFullReport_count_le_one, ?_⟩
  · rw [needs_eq_count]
    exact decide_eq_true_iff
  · rw [needs_eq_count, h]
    rfl
  · intro env parsed c kws hm
    exact runFullReport_secondPass_mem env parsed c kws hm

/-- Witness for C5: a result with exactly two missing signals does not
trigger a second pass; one with three does. -/
theorem needs_second_search_majority_witness :
    missingSignalCount demoOverviewTwoMissing = 2
    ∧ _needs_second_search
        { company_overview := demoOverviewTwoMissing, recent_developments := {}
          products_pricing := {}, sources := [] } = false
    ∧ (_needs_second_search demoNews1 = true ↔ 3 ≤ missingSignalCount demoOverviewIncomplete) :=
  ⟨by decide,
   needs_second_search_majority.2.1
     { company_overview := demoOverviewTwoMissing, recent_developments := {}
       products_pricing := {}, sources := [] } (by decide),
   needs_second_search_majority.1 demoNews1⟩

end MAS
